import Mathlib

/-!
Verification development for the video-upscaling subsystem of the
better-niconico browser extension
(source: src/src/content/features/videoUpscaling.ts).

The TypeScript module is shallowly embedded as follows.

* The DOM region the module manipulates (the player area, its video
  elements, the advertisement container, the single overlay canvas with id
  bn-upscaled-canvas) together with the module-level mutable variables
  (webGPUSupportCache, currentVideoSrc, currentVideoElement,
  currentEnabled, videoObserver, fullscreenListenerSetup) form one record
  type St.  A video element is identified by a numeric id vid; attribute
  reads on an element (getAttribute, videoWidth, src, ...) are lookups of
  the record currently stored for that vid.
* The asynchronous function enableUpscaling is embedded as a coroutine:
  its synchronous prefix (enableStart) runs up to the first await and the
  three awaited suspension points (the WebGPU capability probe, the
  readiness wait, the render call) are explicit Task values resumed by
  stepTask.  The browser event loop is a command machine (exec / runCmds)
  whose commands deliver apply(true)/apply(false) calls, resume a pending
  continuation, fire a fullscreenchange event or a DOM mutation.
* Environment facts the page cannot observe before asking (presence of
  navigator.gpu, adapter acquisition outcome, whether a pending video
  eventually fires its readiness events, the outcome of the anime4k
  render call) are collected in Env.
* Sequential (non-interleaved) executions, in which every enableUpscaling
  invocation runs to completion before the next external call, are the
  derived machine applySeq / seqRun built from the same stage functions.
-/

namespace BetterNiconico

/-- Marker attribute name, from the source constant UPSCALING_MARKER. -/
def UPSCALING_MARKER : String := "data-bn-upscaling"

/-- Marker value for an active element, source constant UPSCALING_ACTIVE. -/
def UPSCALING_ACTIVE : String := "active"

/-- Marker value for an inactive element, source constant UPSCALING_INACTIVE. -/
def UPSCALING_INACTIVE : String := "inactive"

/-- Id of the overlay canvas element, source constant CANVAS_ID. -/
def CANVAS_ID : String := "bn-upscaled-canvas"

/-- HTMLMediaElement.HAVE_METADATA, the readiness level compared against in
waitForVideoReady and read as video.HAVE_METADATA in the source. -/
def HAVE_METADATA : Nat := 1

/-- Maximum number of retries of the readiness waiter (source: maxRetries
in waitForVideoReady). -/
def maxRetries : Nat := 3

/-- Per-attempt timeout of the readiness waiter in milliseconds (source:
the 10000 passed to setTimeout in waitForVideoReady). -/
def perAttemptTimeoutMs : Nat := 10000

/-- Settle delay before re-enabling after a fullscreen exit in
milliseconds (source: the 100 passed to setTimeout in
setupFullscreenListener). -/
def settleDelayMs : Nat := 100

/-- Delay before re-enabling after an observed DOM mutation in
milliseconds (source: the 200 passed to setTimeout in setupVideoObserver). -/
def mutationRetryDelayMs : Nat := 200

/-- The two readiness events the waiter subscribes to (source: the
addEventListener calls in waitForVideoReady). -/
def waitEvents : List String := ["loadedmetadata", "loadeddata"]

/-- One video element inside the page.  vid is the element identity;
src, videoWidth, videoHeight, readyState mirror the media attributes;
inAd means the element is contained in #nv_watch_VideoAdContainer;
inPlayer means it is inside the player root .grid-area_[player];
hasParent mirrors parentElement being non-null; display is the inline
display style; marker is the data-bn-upscaling attribute (none when the
attribute is absent). -/
structure Video where
  vid : Nat
  src : String
  videoWidth : Nat
  videoHeight : Nat
  readyState : Nat
  inAd : Bool
  inPlayer : Bool
  hasParent : Bool
  display : String
  marker : Option String
deriving Repr, DecidableEq

/-- The immutable identity-and-media part of a video element: every field
except the presentation state (display, marker) that the module itself
writes. -/
def Video.core (v : Video) : Nat × String × Nat × Nat × Nat × Bool × Bool × Bool :=
  (v.vid, v.src, v.videoWidth, v.videoHeight, v.readyState, v.inAd, v.inPlayer, v.hasParent)

/-- Page and module state.  The DOM fields: videos, playerAreaPresent,
adContainerPresent, pathIsWatch, fullscreenElement, fsDomIndicator,
canvasCount (number of elements with id bn-upscaled-canvas in the
document) and pipelines (number of live anime4k render loops; a loop dies
exactly when the canvas it draws into is removed).  The remaining fields
are the module-level variables of videoUpscaling.ts;
requestAdapterCalls counts navigator.gpu.requestAdapter invocations,
fullscreenListeners counts installed fullscreenchange listeners and
aliveObservers counts non-disconnected MutationObservers. -/
structure St where
  videos : List Video
  playerAreaPresent : Bool
  adContainerPresent : Bool
  pathIsWatch : Bool
  fullscreenElement : Bool
  fsDomIndicator : Bool
  canvasCount : Nat
  pipelines : Nat
  webGPUSupportCache : Option Bool
  requestAdapterCalls : Nat
  currentVideoSrc : Option String
  currentVideoElement : Option Nat
  currentEnabled : Bool
  videoObserverRef : Bool
  aliveObservers : Nat
  fullscreenListeners : Nat
  fullscreenListenerSetup : Bool
deriving Repr, DecidableEq

/-- Outcome of the awaited anime4k render call. -/
inductive RenderOutcome
  | success
  | abortError
  | failure
deriving Repr, DecidableEq

/-- Unobservable environment facts: whether navigator.gpu exists, whether
requestAdapter throws or yields an adapter, whether a not-yet-ready video
eventually fires its readiness events with positive dimensions, and how
the render call resolves. -/
structure Env where
  gpuPresent : Bool
  adapterAvailable : Bool
  adapterThrows : Bool
  waitSucceeds : Bool
  renderOutcome : RenderOutcome
deriving Repr, DecidableEq

/-- WebGPU error taxonomy (source: ../../types/errors constructors
webgpuNotSupportedError, webgpuAdapterUnavailableError,
webgpuInitializationFailedError, webgpuRenderFailedError). -/
inductive WebGPUError
  | notSupported
  | adapterUnavailable
  | initializationFailed
  | renderFailed
deriving Repr, DecidableEq

/-- Video error taxonomy (source: ../../types/errors constructors
videoNotReadyError, videoDimensionsInvalidError, videoParentMissingError). -/
inductive VideoError
  | notReady (retryCount : Nat)
  | dimensionsInvalid
  | parentMissing
deriving Repr, DecidableEq

/-- Source function isWatchPage. -/
def isWatchPage (st : St) : Bool := st.pathIsWatch

/-- Source function isFullscreenMode: the Fullscreen API check first, then
the DOM-based fallback inside the player area. -/
def isFullscreenMode (st : St) : Bool :=
  st.fullscreenElement || (st.playerAreaPresent && st.fsDomIndicator)

deriving instance DecidableEq for Except

/-- Result of one call of the capability probe. -/
structure ProbeOut where
  result : Except WebGPUError Bool
  cache : Option Bool
  adapterCalls : Nat
deriving Repr, DecidableEq

/-- Source function isWebGPUSupported, as a function of the incoming cache
webGPUSupportCache and the environment.  Returns its Result value, the new
cache and how many times navigator.gpu.requestAdapter was invoked. -/
def isWebGPUSupported (env : Env) (cache : Option Bool) : ProbeOut :=
  match cache with
  | some b => { result := .ok b, cache := some b, adapterCalls := 0 }
  | none =>
    if !env.gpuPresent then
      { result := .error .notSupported, cache := some false, adapterCalls := 0 }
    else if env.adapterThrows then
      { result := .error .initializationFailed, cache := some false, adapterCalls := 1 }
    else if env.adapterAvailable then
      { result := .ok true, cache := some true, adapterCalls := 1 }
    else
      { result := .error .adapterUnavailable, cache := some false, adapterCalls := 1 }

/-- Source function isAdVideo: the element is an advertisement iff the
advertisement container exists and contains it. -/
def isAdVideo (st : St) (v : Video) : Bool :=
  st.adContainerPresent && v.inAd

/-- Source function isValidContentVideo. -/
def isValidContentVideo (st : St) (v : Video) : Bool :=
  (v.src != "") && decide (0 < v.videoWidth) && decide (0 < v.videoHeight)
    && !(isAdVideo st v)

/-- The videos returned by playerArea.querySelectorAll, in document order. -/
def playerVideos (st : St) : List Video :=
  st.videos.filter (fun v => v.inPlayer)

/-- The selection loop of getVideoElement: best video so far and its
readyState (initially -1). -/
def selectLoop (st : St) : List Video → Option Video → Int → Option Video
  | [], best, _ => best
  | v :: rest, best, bestReadyState =>
    if isValidContentVideo st v && decide ((v.readyState : Int) > bestReadyState) then
      selectLoop st rest (some v) (v.readyState : Int)
    else
      selectLoop st rest best bestReadyState

/-- Source function getVideoElement. -/
def getVideoElement (st : St) : Option Video :=
  if st.playerAreaPresent then selectLoop st (playerVideos st) none (-1) else none

/-- Source function hasVideoChanged. -/
def hasVideoChanged (st : St) (video : Option Video) : Bool :=
  match video with
  | none => decide (st.currentVideoElement ≠ none) || decide (st.currentVideoSrc ≠ none)
  | some v =>
    decide (st.currentVideoElement ≠ some v.vid)
      || decide (st.currentVideoSrc ≠ some v.src)

/-- Element lookup by identity: the dereference of a retained element
reference, reading the element as it currently is. -/
def findVideo (st : St) (id : Nat) : Option Video :=
  st.videos.find? (fun v => v.vid == id)

/-- getAttribute UPSCALING_MARKER on the element with identity id. -/
def markerOf (st : St) (id : Nat) : Option String :=
  match findVideo st id with
  | some v => v.marker
  | none => none

/-- Write to the element with identity id. -/
def updVideo (st : St) (id : Nat) (f : Video → Video) : St :=
  { st with videos := st.videos.map (fun v => if v.vid == id then f v else v) }

/-- The video-list effect of cleanupUpscaling: first the passed video (if
any) gets its display restored and its marker set to inactive, then every
video inside the player area gets the same treatment. -/
def cleanupVideos (playerArea : Bool) (video : Option Nat) (l : List Video) : List Video :=
  let l1 :=
    match video with
    | some id =>
      l.map (fun v =>
        if v.vid == id then { v with display := "", marker := some UPSCALING_INACTIVE }
        else v)
    | none => l
  if playerArea then
    l1.map (fun v =>
      if v.inPlayer then { v with display := "", marker := some UPSCALING_INACTIVE }
      else v)
  else l1

/-- Source function cleanupUpscaling.  The canvas (if present) is removed,
which stops every render loop drawing into it; the passed video and then
every video inside the player area get display restored and marker set to
inactive; finally the module session variables are reset. -/
def cleanupUpscaling (st : St) (video : Option Nat) : St :=
  { st with
    canvasCount := 0
    pipelines := if 0 < st.canvasCount then 0 else st.pipelines
    videos := cleanupVideos st.playerAreaPresent video st.videos
    currentVideoElement := none
    currentVideoSrc := none }

/-- Whether the readiness fast path of waitForVideoReady accepts the video
right away: readyState at least HAVE_METADATA and positive dimensions. -/
def readyNow (v : Video) : Bool :=
  decide (HAVE_METADATA ≤ v.readyState) && decide (0 < v.videoWidth)
    && decide (0 < v.videoHeight)

/-- Outcome of one waiting attempt of waitForVideoReady: either one of the
two readiness events fired and after the settle delay the dimensions were
positive, or the event fired but dimensions were still missing, or the
10-second timeout elapsed first. -/
inductive AttemptOutcome
  | eventDims
  | eventNoDims
  | timeout
deriving Repr, DecidableEq

/-- Source function waitForVideoReady.  vAt k is the state of the video
element when the call with retryCount = k runs its entry check; outcome k
is how the waiting attempt started by that call ends. -/
def waitForVideoReady (vAt : Nat → Video) (outcome : Nat → AttemptOutcome)
    (retryCount : Nat) : Except VideoError Bool :=
  if readyNow (vAt retryCount) then .ok true
  else if maxRetries ≤ retryCount then .error (.notReady retryCount)
  else
    match outcome retryCount with
    | .eventDims => .ok true
    | .eventNoDims => waitForVideoReady vAt outcome (retryCount + 1)
    | .timeout => waitForVideoReady vAt outcome (retryCount + 1)
termination_by maxRetries + 1 - retryCount
decreasing_by
  all_goals
    simp only [maxRetries] at *
    omega

/-- Source function createUpscaledCanvas, restricted to the effects the
claims are about: the parent and dimension guards, and creation of the
canvas only when no element with id bn-upscaled-canvas exists yet. -/
def createUpscaledCanvas (st : St) (v : Video) : Except VideoError St :=
  if !v.hasParent then .error .parentMissing
  else if v.videoWidth = 0 || v.videoHeight = 0 then .error .dimensionsInvalid
  else .ok (if st.canvasCount = 0 then { st with canvasCount := 1 } else st)

/-- The tail of enableUpscaling after a successful render call: the
pipeline is live, the video is hidden, the marker set and the session
recorded (reading video.src at that moment). -/
def activateSession (st : St) (v : Video) : St :=
  { st with
    pipelines := st.pipelines + 1
    videos := st.videos.map (fun u =>
      if u.vid == v.vid then { u with display := "none", marker := some UPSCALING_ACTIVE }
      else u)
    currentVideoElement := some v.vid
    currentVideoSrc := some v.src }

/-- A pending continuation on the event loop: the three suspension points
of enableUpscaling, plus a setTimeout that will invoke enableUpscaling. -/
inductive Task
  | atProbe (vid : Nat)
  | atWait (vid : Nat)
  | atRender (vid : Nat)
  | timerEnable (delayMs : Nat)
deriving Repr, DecidableEq

/-- The synchronous prefix of enableUpscaling: the watch-page guard, the
fullscreen guard, media location, change detection with cleanup, the
idempotency marker check; it suspends at the capability probe. -/
def enableStart (st : St) : St × Option Task :=
  if !isWatchPage st then (st, none)
  else if isFullscreenMode st then
    (match st.currentVideoElement with
     | some id => cleanupUpscaling st (some id)
     | none => st, none)
  else
    match getVideoElement st with
    | none => (st, none)
    | some v =>
      let st1 :=
        if hasVideoChanged st (some v) then
          let stc :=
            match st.currentVideoElement with
            | some id => cleanupUpscaling st (some id)
            | none => st
          { stc with currentVideoElement := none, currentVideoSrc := none }
        else st
      if markerOf st1 v.vid == some UPSCALING_ACTIVE then (st1, none)
      else (st1, some (.atProbe v.vid))

/-- The capability probe as a state transformer (cache and call counter
live in St). -/
def probeSt (env : Env) (st : St) : Except WebGPUError Bool × St :=
  let out := isWebGPUSupported env st.webGPUSupportCache
  (out.result,
   { st with
     webGPUSupportCache := out.cache
     requestAdapterCalls := st.requestAdapterCalls + out.adapterCalls })

/-- Whether the awaited readiness wait of an in-flight enableUpscaling
resolves with ok: immediately when the element is already ready, else
according to the environment. -/
def waitResolvesOk (env : Env) (st : St) (vid : Nat) : Bool :=
  match findVideo st vid with
  | none => false
  | some v => readyNow v || env.waitSucceeds

/-- Resume one suspended continuation.  The probe resumption checks only
isErr() on the probe result, exactly as the source does; the render
resumption distinguishes success, AbortError and other failures. -/
def stepTask (env : Env) (st : St) : Task → St × Option Task
  | .timerEnable _ => enableStart st
  | .atProbe vid =>
    let p := probeSt env st
    match p.1 with
    | .error _ => (p.2, none)
    | .ok _ => (p.2, some (.atWait vid))
  | .atWait vid =>
    if waitResolvesOk env st vid then
      match findVideo st vid with
      | none => (st, none)
      | some v =>
        match createUpscaledCanvas st v with
        | .error _ => (st, none)
        | .ok st1 => (st1, some (.atRender vid))
    else (st, none)
  | .atRender vid =>
    match env.renderOutcome with
    | .success =>
      match findVideo st vid with
      | none => (st, none)
      | some v => (activateSession st v, none)
    | .abortError => (st, none)
    | .failure =>
      let st1 := cleanupUpscaling st (some vid)
      ({ st1 with currentVideoElement := none, currentVideoSrc := none }, none)

/-- Source function setupFullscreenListener. -/
def setupFullscreenListener (st : St) : St :=
  if !isWatchPage st || st.fullscreenListenerSetup then st
  else
    { st with
      fullscreenListeners := st.fullscreenListeners + 1
      fullscreenListenerSetup := true }

/-- Source function setupVideoObserver. -/
def setupVideoObserver (st : St) : St :=
  if !isWatchPage st || st.videoObserverRef then st
  else if !st.playerAreaPresent then st
  else { st with videoObserverRef := true, aliveObservers := st.aliveObservers + 1 }

/-- Source function stopVideoObserver. -/
def stopVideoObserver (st : St) : St :=
  if st.videoObserverRef then
    { st with videoObserverRef := false, aliveObservers := st.aliveObservers - 1 }
  else st

/-- Source function disableUpscaling. -/
def disableUpscaling (st : St) : St :=
  cleanupUpscaling st ((getVideoElement st).map (fun v => v.vid))

/-- The body of the fullscreenchange listener installed by
setupFullscreenListener: on entering fullscreen an active session is torn
down synchronously; on exiting, if the feature is enabled, a re-enable is
scheduled after the settle delay. -/
def fullscreenChangeHandler (st : St) : St × Option Task :=
  if st.fullscreenElement then
    (match st.currentVideoElement with
     | some id => cleanupUpscaling st (some id)
     | none => st, none)
  else if st.currentEnabled then (st, some (.timerEnable settleDelayMs))
  else (st, none)

/-- A DOM mutation inside the player area: a src attribute change on a
video element, or the insertion of a subtree containing a video element. -/
inductive Mut
  | srcSet (vid : Nat) (newSrc : String)
  | nodeAdded
deriving Repr, DecidableEq

/-- The raw DOM effect of a mutation, independent of any observer. -/
def domApply (st : St) : Mut → St
  | .srcSet vid s => updVideo st vid (fun v => { v with src := s })
  | .nodeAdded => st

/-- The MutationObserver callback installed by setupVideoObserver. -/
def observerCallback (st : St) : Mut → St × Option Task
  | .srcSet vid _ =>
    match findVideo st vid with
    | none => (st, none)
    | some v =>
      if v.inPlayer && isValidContentVideo st v && st.currentEnabled then
        let st1 :=
          match st.currentVideoElement with
          | some id => cleanupUpscaling st (some id)
          | none => st
        (st1, some (.timerEnable mutationRetryDelayMs))
      else (st, none)
  | .nodeAdded =>
    if st.currentEnabled then (st, some (.timerEnable mutationRetryDelayMs))
    else (st, none)

/-- The state effect of apply(false): record the flag, run
disableUpscaling, stop the observer. -/
def applyFalseSt (st : St) : St :=
  stopVideoObserver (disableUpscaling { st with currentEnabled := false })

/-- The whole event-loop state: page state plus pending continuations. -/
structure Sys where
  st : St
  tasks : List Task
deriving Repr, DecidableEq

/-- A command delivered to the event loop: an apply call from the settings
collaborator, resumption of the i-th pending continuation, a native
fullscreenchange event, or a DOM mutation. -/
inductive Cmd
  | applyTrue
  | applyFalse
  | resume (i : Nat)
  | fsEvent (b : Bool)
  | mutation (m : Mut)
deriving Repr, DecidableEq

/-- Replace the i-th pending task by the follow-up continuation (or drop
it when the coroutine finished). -/
def replaceTask (tasks : List Task) (i : Nat) (t : Option Task) : List Task :=
  tasks.take i ++ t.toList ++ tasks.drop (i + 1)

/-- One event-loop step. -/
def exec (env : Env) (sys : Sys) : Cmd → Sys
  | .applyTrue =>
    let st0 := { sys.st with currentEnabled := true }
    let st1 := setupVideoObserver (setupFullscreenListener st0)
    let p := enableStart st1
    ⟨p.1, sys.tasks ++ p.2.toList⟩
  | .applyFalse => ⟨applyFalseSt sys.st, sys.tasks⟩
  | .resume i =>
    match sys.tasks[i]? with
    | none => sys
    | some t =>
      let p := stepTask env sys.st t
      ⟨p.1, replaceTask sys.tasks i p.2⟩
  | .fsEvent b =>
    let st0 := { sys.st with fullscreenElement := b }
    if st0.fullscreenListenerSetup then
      let p := fullscreenChangeHandler st0
      ⟨p.1, sys.tasks ++ p.2.toList⟩
    else ⟨st0, sys.tasks⟩
  | .mutation m =>
    let st0 := domApply sys.st m
    if st0.videoObserverRef then
      let p := observerCallback st0 m
      ⟨p.1, sys.tasks ++ p.2.toList⟩
    else ⟨st0, sys.tasks⟩

/-- Run a command list on the event loop. -/
def runCmds (env : Env) (cmds : List Cmd) (sys : Sys) : Sys :=
  cmds.foldl (exec env) sys

/-- Run one pending enableUpscaling coroutine to completion (its chain has
at most three suspension points). -/
def runTaskChain (env : Env) (st : St) : Task → Nat → St
  | _, 0 => st
  | t, fuel + 1 =>
    let p := stepTask env st t
    match p.2 with
    | none => p.1
    | some t1 => runTaskChain env p.1 t1 fuel

/-- An enableUpscaling invocation run atomically to completion. -/
def enableAtomic (env : Env) (st : St) : St :=
  let p := enableStart st
  match p.2 with
  | none => p.1
  | some t => runTaskChain env p.1 t 3

/-- The state effect of one apply call under sequential execution, in
which the spawned enableUpscaling runs to completion before anything else
happens. -/
def applySeq (env : Env) (st : St) (enabled : Bool) : St :=
  if enabled then
    let st0 := { st with currentEnabled := true }
    enableAtomic env (setupVideoObserver (setupFullscreenListener st0))
  else applyFalseSt st

/-- Run a list of sequential apply calls. -/
def seqRun (env : Env) (cmds : List Bool) (st : St) : St :=
  cmds.foldl (applySeq env) st

/-! Concrete pages used as witnesses and counterexamples. -/

/-- A ready content video inside the player area. -/
def contentVideo : Video :=
  { vid := 1, src := "blob:content", videoWidth := 640, videoHeight := 360,
    readyState := 4, inAd := false, inPlayer := true, hasParent := true,
    display := "", marker := none }

/-- An advertisement video (inside #nv_watch_VideoAdContainer, without
decoded dimensions). -/
def adVideo : Video :=
  { vid := 2, src := "https://ad", videoWidth := 0, videoHeight := 0,
    readyState := 4, inAd := true, inPlayer := true, hasParent := true,
    display := "", marker := none }

/-- A fresh watch page with a single ready content video and no module
state. -/
def initSt : St :=
  { videos := [contentVideo], playerAreaPresent := true,
    adContainerPresent := false, pathIsWatch := true,
    fullscreenElement := false, fsDomIndicator := false,
    canvasCount := 0, pipelines := 0, webGPUSupportCache := none,
    requestAdapterCalls := 0, currentVideoSrc := none,
    currentVideoElement := none, currentEnabled := false,
    videoObserverRef := false, aliveObservers := 0,
    fullscreenListeners := 0, fullscreenListenerSetup := false }

/-- Fresh event loop over initSt. -/
def initSys : Sys := ⟨initSt, []⟩

/-- An environment with working WebGPU, readiness events that fire, and a
render call that succeeds. -/
def envOK : Env :=
  { gpuPresent := true, adapterAvailable := true, adapterThrows := false,
    waitSucceeds := true, renderOutcome := .success }

/-- An environment without navigator.gpu; the render call fails there. -/
def envNoGpu : Env :=
  { gpuPresent := false, adapterAvailable := false, adapterThrows := false,
    waitSucceeds := true, renderOutcome := .failure }

/-- A page holding the advertisement video before the content video. -/
def adFirstSt : St :=
  { initSt with adContainerPresent := true, videos := [adVideo, contentVideo] }

/-- A page holding the content video before the advertisement video. -/
def contentFirstSt : St :=
  { initSt with adContainerPresent := true, videos := [contentVideo, adVideo] }

/-- A page whose only player video is the advertisement. -/
def adOnlySt : St :=
  { initSt with adContainerPresent := true, videos := [adVideo] }

/-- A page holding an active session while fullscreen is engaged. -/
def fsActiveSt : St :=
  { initSt with fullscreenElement := true, currentVideoElement := some 1, canvasCount := 1, pipelines := 1 }

/-- A fresh page with the feature flag enabled. -/
def enabledSt : St :=
  { initSt with currentEnabled := true }

/-- A disabled page whose capability cache is already positive: the state
an in-flight enable sequence sees when its waits resolve after a disable
request. -/
def staleSt : St :=
  { initSt with webGPUSupportCache := some true }

/-- The content video after the host page swapped its source on the same
element while a session was active. -/
def newSrcVideo : Video :=
  { contentVideo with src := "blob:new", marker := some UPSCALING_ACTIVE, display := "none" }

/-- A page with an active session recorded against the old source of the
element that now carries a new source. -/
def mediaChangedSt : St :=
  { initSt with videos := [newSrcVideo], canvasCount := 1, pipelines := 1, webGPUSupportCache := some true, currentVideoElement := some 1, currentVideoSrc := some "blob:old", currentEnabled := true }

/-- Recursive characterisation of the selection loop of getVideoElement:
the first valid candidate attaining the maximal readyState. -/
def firstMax (st : St) : List Video → Option Video
  | [] => none
  | v :: rest =>
    match firstMax st rest with
    | none => if isValidContentVideo st v then some v else none
    | some w =>
      if isValidContentVideo st v && decide (w.readyState ≤ v.readyState) then some v
      else some w

/-- Agreement of two states on the identity cores of their videos and the
presence of the player area: what an apply round trip must preserve. -/
def coreEq (a b : St) : Prop :=
  a.videos.map Video.core = b.videos.map Video.core ∧
    a.playerAreaPresent = b.playerAreaPresent

/-- The session-variable reset that enableUpscaling performs right after
cleaning up a changed video (the code nulls currentVideoElement and
currentVideoSrc again after cleanupUpscaling). -/
def resetSession (st : St) : St :=
  { st with currentVideoElement := none, currentVideoSrc := none }

/-- Single-session invariant of sequential executions: at most one overlay
canvas, no more live pipelines than canvases, and a live pipeline means
the recorded session element carries the active marker. -/
def SInv (st : St) : Prop :=
  st.canvasCount ≤ 1 ∧ st.pipelines ≤ st.canvasCount ∧
    (st.pipelines = 1 →
      ∃ id, st.currentVideoElement = some id ∧ markerOf st id = some UPSCALING_ACTIVE)

/-- Listener/observer bookkeeping invariant: the number of installed
fullscreenchange listeners is determined by the setup flag, and the number
of live MutationObservers by the module observer reference. -/
def MInv (st : St) : Prop :=
  st.fullscreenListeners = (if st.fullscreenListenerSetup then 1 else 0) ∧
    st.aliveObservers = (if st.videoObserverRef then 1 else 0)

/-- Agreement of two states on the fields the listener/observer claims
read: used to transport MInv across steps that do not touch them. -/
def frameLO (a b : St) : Prop :=
  a.fullscreenListeners = b.fullscreenListeners ∧
    a.fullscreenListenerSetup = b.fullscreenListenerSetup ∧
    a.videoObserverRef = b.videoObserverRef ∧
    a.aliveObservers = b.aliveObservers

/-! ## Helper lemmas -/

/-- find? commutes with a map that does not change the truth of the
searched predicate. -/
theorem find_map_pres {α : Type} (p : α → Bool) (g : α → α)
    (h : ∀ v, p (g v) = p v) :
    ∀ l : List α, (l.map g).find? p = (l.find? p).map g := by
  intro l
  induction l with
  | nil => simp
  | cons v tl ih =>
    simp only [List.map_cons, List.find?_cons]
    rw [h v]
    cases hp : p v <;> simp [ih]

/-- A member of a list with pairwise distinct identities is the value
find? returns for its identity. -/
theorem find_vid_of_mem_nodup {l : List Video} {v : Video}
    (hmem : v ∈ l) (hnd : (l.map (fun u => u.vid)).Nodup) :
    l.find? (fun u => u.vid == v.vid) = some v := by
  induction l with
  | nil => cases hmem
  | cons u tl ih =>
    simp only [List.map_cons, List.nodup_cons] at hnd
    rcases List.mem_cons.mp hmem with h | h
    · subst h
      simp [List.find?_cons]
    · have hne : ¬(u.vid == v.vid) = true := by
        intro hcontra
        exact hnd.1 (by
          rw [show u.vid = v.vid from beq_iff_eq.mp hcontra]
          exact List.mem_map.mpr ⟨v, h, rfl⟩)
      simp only [List.find?_cons]
      rw [Bool.eq_false_iff.mpr hne]
      exact ih h hnd.2

/-- A member of the video list with pairwise distinct identities is what
element lookup by its identity dereferences to. -/
theorem findVideo_of_mem_nodup {st : St} {v : Video}
    (hmem : v ∈ st.videos) (hnd : (st.videos.map (fun u => u.vid)).Nodup) :
    findVideo st v.vid = some v :=
  find_vid_of_mem_nodup hmem hnd

/-- Mapping a function that preserves Video.core does not change the list
of cores. -/
theorem map_core_map (g : Video → Video) (h : ∀ v, (g v).core = v.core)
    (l : List Video) : (l.map g).map Video.core = l.map Video.core := by
  induction l with
  | nil => rfl
  | cons v tl ih => simp [h v, ih]

/-! ## Counterexample and bug traces -/

/-- Counterexample to C1 as stated.  Two apply(true) calls with no
intervening apply(false), whose spawned enableUpscaling coroutines
interleave on the event loop (each passes the idempotency marker check
before the other activates), end with two concurrently running render
pipelines drawing into the single overlay canvas. -/
theorem C1_interleaved_two_pipelines :
    (runCmds envOK
      [.applyTrue, .applyTrue, .resume 0, .resume 1, .resume 0, .resume 1,
       .resume 0, .resume 0] initSys).st.pipelines = 2 ∧
    (runCmds envOK
      [.applyTrue, .applyTrue, .resume 0, .resume 1, .resume 0, .resume 1,
       .resume 0, .resume 0] initSys).st.canvasCount = 1 := by
  constructor <;> rfl

/-- Counterexample to C2 as stated.  After apply(false), apply(true),
apply(false) run sequentially on a fresh watch page, the DOM is not the
state of never having called apply: the processing marker attribute is
present with value inactive on the video element, whereas it was absent
initially (cleanupUpscaling calls setAttribute rather than
removeAttribute). -/
theorem C2_marker_residue :
    (seqRun envOK [false, true, false] initSt).videos.map (fun v => v.marker)
        = [some UPSCALING_INACTIVE] ∧
    initSt.videos.map (fun v => v.marker) = [none] ∧
    (seqRun envOK [false, true, false] initSt).videos ≠ initSt.videos := by
  refine ⟨by rfl, by rfl, ?_⟩
  decide

/-- C3 exhibits a code bug.  First enable attempt in an environment
without navigator.gpu: the probe resolves Unsupported (cache some false)
and the attempt stops with no canvas and no pending work.  Second
apply(true): the cached probe returns ok(false), enableUpscaling checks
only isErr(), so the attempt proceeds past the capability gate, creates
the overlay canvas (canvasCount = 1) and suspends at the render call —
contradicting the claim that every subsequent enable attempt stays
Disabled and never creates an overlay surface.  (No further adapter
acquisition happens: requestAdapterCalls stays 0.) -/
theorem C3_unsupported_not_terminal :
    (runCmds envNoGpu [.applyTrue, .resume 0] initSys).st.webGPUSupportCache
        = some false ∧
    (runCmds envNoGpu [.applyTrue, .resume 0] initSys).st.canvasCount = 0 ∧
    (runCmds envNoGpu [.applyTrue, .resume 0] initSys).tasks = [] ∧
    (runCmds envNoGpu [.applyTrue, .resume 0, .applyTrue, .resume 0, .resume 0]
      initSys).st.canvasCount = 1 ∧
    (runCmds envNoGpu [.applyTrue, .resume 0, .applyTrue, .resume 0, .resume 0]
      initSys).tasks = [.atRender 1] ∧
    (runCmds envNoGpu [.applyTrue, .resume 0, .applyTrue, .resume 0, .resume 0]
      initSys).st.requestAdapterCalls = 0 := by
  refine ⟨rfl, rfl, rfl, rfl, rfl, rfl⟩

/-- Counterexample to C4 as stated.  An enableUpscaling started by
apply(true) is suspended at its capability probe when apply(false)
arrives; when its waits subsequently resolve it performs no
still-current check: it creates the canvas, starts the pipeline, hides
the video, sets the active marker and records the session, leaving a live
session while the feature is disabled. -/
theorem C4_stale_start_activates :
    (runCmds envOK [.applyTrue, .applyFalse, .resume 0, .resume 0, .resume 0]
      initSys).st.currentEnabled = false ∧
    (runCmds envOK [.applyTrue, .applyFalse, .resume 0, .resume 0, .resume 0]
      initSys).st.pipelines = 1 ∧
    (runCmds envOK [.applyTrue, .applyFalse, .resume 0, .resume 0, .resume 0]
      initSys).st.canvasCount = 1 ∧
    (runCmds envOK [.applyTrue, .applyFalse, .resume 0, .resume 0, .resume 0]
      initSys).st.currentVideoElement = some 1 ∧
    markerOf (runCmds envOK [.applyTrue, .applyFalse, .resume 0, .resume 0, .resume 0]
      initSys).st 1 = some UPSCALING_ACTIVE ∧
    ((runCmds envOK [.applyTrue, .applyFalse, .resume 0, .resume 0, .resume 0]
      initSys).st.videos.map (fun v => v.display)) = ["none"] := by
  refine ⟨rfl, rfl, rfl, rfl, rfl, rfl⟩

/-! ## Capability probe and readiness waiter -/

/-- C8: the first call of the capability probe performs the actual
environment check (no adapter acquisition when the GPU entry point is
absent, exactly one otherwise) and caches the outcome; every call with a
populated cache returns the cached value with zero adapter-acquisition
attempts — in particular a second probe call after Unsupported was cached
performs no further acquisition attempt. -/
theorem C8_probe_caching :
    (∀ env b, isWebGPUSupported env (some b)
        = { result := .ok b, cache := some b, adapterCalls := 0 }) ∧
    (∀ env, env.gpuPresent = false →
      isWebGPUSupported env none
        = { result := .error .notSupported, cache := some false, adapterCalls := 0 }) ∧
    (∀ env, env.gpuPresent = true → (isWebGPUSupported env none).adapterCalls = 1) ∧
    (∀ env env2, (isWebGPUSupported env none).cache = some false →
      (isWebGPUSupported env2 ((isWebGPUSupported env none).cache)).adapterCalls = 0 ∧
      (isWebGPUSupported env2 ((isWebGPUSupported env none).cache)).result = .ok false) := by
  refine ⟨fun env b => rfl, fun env h => by simp [isWebGPUSupported, h], ?_, ?_⟩
  · intro env h
    simp only [isWebGPUSupported, h]
    split <;> rename_i h1
    · simp at h1
    · split <;> [rfl; skip]
      split <;> rfl
  · intro env env2 hcache
    rw [hcache]
    exact ⟨rfl, rfl⟩

/-- Witness for C8 at concrete environments: cache hit with false, first
probe without a GPU entry point, first probe with a working adapter, and
the unsupported-then-reprobe pair. -/
theorem C8_probe_caching_witness :
    isWebGPUSupported envOK (some false)
        = { result := .ok false, cache := some false, adapterCalls := 0 } ∧
    isWebGPUSupported envNoGpu none
        = { result := .error .notSupported, cache := some false, adapterCalls := 0 } ∧
    (isWebGPUSupported envOK none).adapterCalls = 1 ∧
    (isWebGPUSupported envOK ((isWebGPUSupported envNoGpu none).cache)).adapterCalls
        = 0 :=
  ⟨C8_probe_caching.1 envOK false, C8_probe_caching.2.1 envNoGpu rfl,
   C8_probe_caching.2.2.1 envOK rfl,
   (C8_probe_caching.2.2.2 envNoGpu envOK rfl).1⟩

/-- C9: the readiness waiter returns Ready immediately when the video
already has decoded metadata (readyState at least HAVE_METADATA) and
positive dimensions; otherwise it subscribes to the loadedmetadata and
loadeddata events with a 10000 ms per-attempt timeout and retries up to
maxRetries = 3 times; an attempt that times out does not fail but starts
the next attempt; a TimedOut error is returned only after the retries are
exhausted with the video never ready and no attempt succeeding. -/
theorem C9_readiness_waiter :
    maxRetries = 3 ∧ perAttemptTimeoutMs = 10000 ∧
    waitEvents = ["loadedmetadata", "loadeddata"] ∧
    (∀ vAt o, readyNow (vAt 0) = true → waitForVideoReady vAt o 0 = .ok true) ∧
    (∀ vAt o k, readyNow (vAt k) = false → k < maxRetries → o k = .timeout →
      waitForVideoReady vAt o k = waitForVideoReady vAt o (k + 1)) ∧
    (∀ vAt o e, waitForVideoReady vAt o 0 = .error e →
      e = .notReady maxRetries ∧
      (∀ k, k ≤ maxRetries → readyNow (vAt k) = false) ∧
      (∀ k, k < maxRetries → o k ≠ .eventDims)) := by
  refine ⟨rfl, rfl, rfl, ?_, ?_, ?_⟩
  · intro vAt o h
    rw [waitForVideoReady]
    simp [h]
  · intro vAt o k h hk ho
    rw [waitForVideoReady]
    simp only [h, Bool.false_eq_true, if_false, ho]
    rw [if_neg (by omega)]
  · intro vAt o e h
    have step : ∀ k, k < maxRetries → readyNow (vAt k) = false →
        waitForVideoReady vAt o k = .error e →
        o k ≠ .eventDims ∧ waitForVideoReady vAt o (k + 1) = .error e := by
      intro k hk hr hke
      rw [waitForVideoReady] at hke
      simp only [hr, Bool.false_eq_true, if_false] at hke
      rw [if_neg (by omega)] at hke
      cases ho : o k <;> rw [ho] at hke
      · exact absurd hke (by simp)
      · exact ⟨by simp [ho], hke⟩
      · exact ⟨by simp [ho], hke⟩
    have r0 : readyNow (vAt 0) = false := by
      cases hc : readyNow (vAt 0)
      · rfl
      · rw [waitForVideoReady] at h
        simp [hc] at h
    have s0 := step 0 (by simp [maxRetries]) r0 h
    have r1 : readyNow (vAt 1) = false := by
      cases hc : readyNow (vAt 1)
      · rfl
      · have := s0.2
        rw [waitForVideoReady] at this
        simp [hc] at this
    have s1 := step 1 (by simp [maxRetries]) r1 s0.2
    have r2 : readyNow (vAt 2) = false := by
      cases hc : readyNow (vAt 2)
      · rfl
      · have := s1.2
        rw [waitForVideoReady] at this
        simp [hc] at this
    have s2 := step 2 (by simp [maxRetries]) r2 s1.2
    have r3 : readyNow (vAt 3) = false := by
      cases hc : readyNow (vAt 3)
      · rfl
      · have := s2.2
        rw [waitForVideoReady] at this
        simp [hc] at this
    have hlast := s2.2
    rw [waitForVideoReady] at hlast
    simp only [r3, Bool.false_eq_true, if_false] at hlast
    rw [if_pos (by simp [maxRetries])] at hlast
    refine ⟨by injection hlast with h1; exact h1.symm, ?_, ?_⟩
    · intro k hk
      simp only [maxRetries] at hk
      interval_cases k
      · exact r0
      · exact r1
      · exact r2
      · exact r3
    · intro k hk
      simp only [maxRetries] at hk
      interval_cases k
      · exact s0.1
      · exact s1.1
      · exact s2.1

/-- Witness for C9: an already-ready video is accepted immediately; a
video that is never ready with every attempt timing out produces the
TimedOut error and each timeout hands over to the next attempt. -/
theorem C9_readiness_waiter_witness :
    waitForVideoReady (fun _ => contentVideo) (fun _ => .timeout) 0 = .ok true ∧
    waitForVideoReady (fun _ => adVideo) (fun _ => .timeout) 0
        = waitForVideoReady (fun _ => adVideo) (fun _ => .timeout) 1 := by
  constructor
  · exact C9_readiness_waiter.2.2.2.1 (fun _ => contentVideo) (fun _ => .timeout)
      (by decide)
  · exact C9_readiness_waiter.2.2.2.2.1 (fun _ => adVideo) (fun _ => .timeout) 0
      (by decide) (by decide) rfl

/-! ## Media locator -/

/-- The selection loop with a valid accumulator returns the accumulator
unless a later candidate strictly beats its readyState; firstMax
describes the winner among the remaining list. -/
theorem selectLoop_acc (st : St) (l : List Video) : ∀ b : Video,
    selectLoop st l (some b) (b.readyState : Int) =
      match firstMax st l with
      | none => some b
      | some w => if b.readyState < w.readyState then some w else some b := by
  induction l with
  | nil => intro b; simp [selectLoop, firstMax]
  | cons v rest ih =>
    intro b
    simp only [selectLoop, firstMax]
    by_cases hv : isValidContentVideo st v = true
    · by_cases hcmp : b.readyState < v.readyState
      · rw [if_pos (by simp [hv]; exact_mod_cast hcmp)]
        rw [ih v]
        cases hfm : firstMax st rest with
        | none => simp [hv, hcmp]
        | some w =>
          by_cases hvw : w.readyState ≤ v.readyState
          · have h1 : ¬ v.readyState < w.readyState := by omega
            simp [hv, hvw, hcmp, h1]
          · have h1 : v.readyState < w.readyState := by omega
            have h2 : ¬ w.readyState ≤ v.readyState := by omega
            have h3 : b.readyState < w.readyState := by omega
            simp [hv, h1, h2, h3]
      · rw [if_neg (by simp; intro; omega)]
        rw [ih b]
        cases hfm : firstMax st rest with
        | none => simp [hv, hcmp]
        | some w =>
          by_cases hvw : w.readyState ≤ v.readyState
          · have h1 : ¬ b.readyState < w.readyState := by omega
            simp [hv, hvw, hcmp, h1]
          · have h2 : ¬ w.readyState ≤ v.readyState := by omega
            simp [hv, h2]
    · rw [if_neg (by simp [hv])]
      rw [ih b]
      cases hfm : firstMax st rest with
      | none => simp [hv]
      | some w => simp [hv]

/-- The selection loop of getVideoElement started on the empty
accumulator computes firstMax. -/
theorem selectLoop_eq_firstMax (st : St) (l : List Video) :
    selectLoop st l none (-1) = firstMax st l := by
  induction l with
  | nil => rfl
  | cons v rest ih =>
    simp only [selectLoop, firstMax]
    by_cases hv : isValidContentVideo st v = true
    · rw [if_pos (by simp [hv]; omega)]
      rw [selectLoop_acc]
      cases hfm : firstMax st rest with
      | none => simp [hv]
      | some w =>
        by_cases hvw : w.readyState ≤ v.readyState
        · have h1 : ¬ v.readyState < w.readyState := by omega
          simp [hv, hvw, h1]
        · have h1 : v.readyState < w.readyState := by omega
          have h2 : ¬ w.readyState ≤ v.readyState := by omega
          simp [hv, h1, h2]
    · rw [if_neg (by simp [hv])]
      rw [ih]
      cases hfm : firstMax st rest with
      | none => simp [hv]
      | some w => simp [hv]

/-- firstMax is none exactly when no candidate is valid. -/
theorem firstMax_none_iff (st : St) (l : List Video) :
    firstMax st l = none ↔ ∀ u ∈ l, isValidContentVideo st u = false := by
  induction l with
  | nil => simp [firstMax]
  | cons v rest ih =>
    cases hfm : firstMax st rest with
    | none =>
      simp only [firstMax, hfm]
      by_cases hv : isValidContentVideo st v = true
      · simp only [hv, if_true]
        constructor
        · intro h; exact absurd h (by simp)
        · intro h
          exact absurd hv (by simp [h v (List.mem_cons_self v rest)])
      · simp only [hv, if_false]
        constructor
        · intro _ u hu
          rcases List.mem_cons.mp hu with h1 | h1
          · subst h1; simpa using hv
          · exact (ih.mp hfm) u h1
        · intro _; rfl
    | some w =>
      simp only [firstMax, hfm]
      constructor
      · intro h
        by_cases hc : (isValidContentVideo st v
            && decide (w.readyState ≤ v.readyState)) = true
        · rw [if_pos hc] at h; exact absurd h (by simp)
        · rw [if_neg hc] at h; exact absurd h (by simp)
      · intro h
        have hnone : firstMax st rest = none :=
          ih.mpr (fun u hu => h u (List.mem_cons_of_mem v hu))
        rw [hnone] at hfm
        exact absurd hfm (by simp)

/-- The firstMax winner is a valid member of the list. -/
theorem firstMax_mem (st : St) (l : List Video) (v : Video)
    (h : firstMax st l = some v) : v ∈ l ∧ isValidContentVideo st v = true := by
  induction l with
  | nil => simp [firstMax] at h
  | cons u rest ih =>
    cases hfm : firstMax st rest with
    | none =>
      simp only [firstMax, hfm] at h
      by_cases hu : isValidContentVideo st u = true
      · rw [if_pos hu] at h
        injection h with h
        subst h
        exact ⟨List.mem_cons_self u rest, hu⟩
      · rw [if_neg hu] at h; exact absurd h (by simp)
    | some w =>
      simp only [firstMax, hfm] at h
      by_cases hc : (isValidContentVideo st u
          && decide (w.readyState ≤ u.readyState)) = true
      · rw [if_pos hc] at h
        injection h with h
        subst h
        simp only [Bool.and_eq_true] at hc
        exact ⟨List.mem_cons_self u rest, hc.1⟩
      · rw [if_neg hc] at h
        injection h with h
        subst h
        obtain ⟨h1, h2⟩ := ih hfm
        exact ⟨List.mem_cons_of_mem u h1, h2⟩

/-- The firstMax winner has maximal readyState among the valid
candidates. -/
theorem firstMax_max (st : St) (l : List Video) :
    ∀ v, firstMax st l = some v →
    ∀ u ∈ l, isValidContentVideo st u = true → u.readyState ≤ v.readyState := by
  induction l with
  | nil => intro v h; simp [firstMax] at h
  | cons u rest ih =>
    intro v h x hx hxv
    cases hfm : firstMax st rest with
    | none =>
      simp only [firstMax, hfm] at h
      rcases List.mem_cons.mp hx with h1 | h1
      · subst h1
        rw [if_pos hxv] at h
        injection h with h
        subst h
        exact le_refl _
      · exact absurd hxv (by simp [(firstMax_none_iff st rest).mp hfm x h1])
    | some w =>
      simp only [firstMax, hfm] at h
      by_cases hc : (isValidContentVideo st u
          && decide (w.readyState ≤ u.readyState)) = true
      · rw [if_pos hc] at h
        injection h with h
        subst h
        simp only [Bool.and_eq_true, decide_eq_true_eq] at hc
        rcases List.mem_cons.mp hx with h1 | h1
        · subst h1; exact le_refl _
        · exact le_trans (ih w hfm x h1 hxv) hc.2
      · rw [if_neg hc] at h
        injection h with h
        subst h
        rcases List.mem_cons.mp hx with h1 | h1
        · subst h1
          by_contra hlt
          exact hc (by simp [hxv]; omega)
        · exact ih w hfm x h1 hxv

/-- Every valid candidate occurring before the firstMax winner has a
strictly smaller readyState: ties are broken by encounter order. -/
theorem firstMax_first (st : St) (l : List Video) (v : Video)
    (h : firstMax st l = some v) :
    ∃ l1 l2, l = l1 ++ v :: l2 ∧
      ∀ u ∈ l1, isValidContentVideo st u = true → u.readyState < v.readyState := by
  induction l with
  | nil => simp [firstMax] at h
  | cons u rest ih =>
    cases hfm : firstMax st rest with
    | none =>
      simp only [firstMax, hfm] at h
      by_cases hu : isValidContentVideo st u = true
      · rw [if_pos hu] at h
        injection h with h
        subst h
        exact ⟨[], rest, rfl, by simp⟩
      · rw [if_neg hu] at h; exact absurd h (by simp)
    | some w =>
      simp only [firstMax, hfm] at h
      by_cases hc : (isValidContentVideo st u
          && decide (w.readyState ≤ u.readyState)) = true
      · rw [if_pos hc] at h
        injection h with h
        subst h
        exact ⟨[], rest, rfl, by simp⟩
      · rw [if_neg hc] at h
        injection h with h
        subst h
        obtain ⟨l1, l2, heq, hlt⟩ := ih hfm
        refine ⟨u :: l1, l2, by rw [heq]; rfl, ?_⟩
        intro x hx hxv
        rcases List.mem_cons.mp hx with h1 | h1
        · subst h1
          by_contra hge
          exact hc (by simp [hxv]; omega)
        · exact hlt x h1 hxv

/-- C5: the media locator searches only inside the player root (the
result is a player-area video, and nothing is returned when the player
root is absent); a candidate is valid iff it has a non-empty source,
positive decoded width and height, and is not inside the advertisement
container; the returned candidate is valid with maximal readyState among
the valid player-area candidates, ties broken by encounter order; null is
returned exactly when no valid candidate exists; and in the
advertisement-plus-content scenario the content video wins in both DOM
orders. -/
theorem C5_media_locator :
    (∀ st v, getVideoElement st = some v →
      v ∈ st.videos ∧ v.inPlayer = true ∧ isValidContentVideo st v = true ∧
      (∀ u ∈ st.videos, u.inPlayer = true → isValidContentVideo st u = true →
        u.readyState ≤ v.readyState) ∧
      (∃ l1 l2, playerVideos st = l1 ++ v :: l2 ∧
        ∀ u ∈ l1, isValidContentVideo st u = true →
          u.readyState < v.readyState)) ∧
    (∀ st, getVideoElement st = none ↔
      (st.playerAreaPresent = false ∨
        ∀ u ∈ st.videos, u.inPlayer = true → isValidContentVideo st u = false)) ∧
    (∀ st u, isValidContentVideo st u = true ↔
      (u.src ≠ "" ∧ 0 < u.videoWidth ∧ 0 < u.videoHeight ∧
        ¬(st.adContainerPresent = true ∧ u.inAd = true))) ∧
    getVideoElement adFirstSt = some contentVideo ∧
    getVideoElement contentFirstSt = some contentVideo := by
  refine ⟨?_, ?_, ?_, rfl, rfl⟩
  · intro st v h
    unfold getVideoElement at h
    by_cases hpa : st.playerAreaPresent = true
    · rw [if_pos hpa, selectLoop_eq_firstMax] at h
      have hmem := firstMax_mem st (playerVideos st) v h
      have hmem2 := List.mem_filter.mp hmem.1
      refine ⟨hmem2.1, hmem2.2, hmem.2, ?_, ?_⟩
      · intro u hu hup huv
        exact firstMax_max st (playerVideos st) v h u
          (List.mem_filter.mpr ⟨hu, hup⟩) huv
      · exact firstMax_first st (playerVideos st) v h
    · rw [if_neg hpa] at h
      cases h
  · intro st
    unfold getVideoElement
    by_cases hpa : st.playerAreaPresent = true
    · rw [if_pos hpa, selectLoop_eq_firstMax]
      rw [firstMax_none_iff]
      constructor
      · intro h
        exact Or.inr (fun u hu hup => h u (List.mem_filter.mpr ⟨hu, hup⟩))
      · intro h u hu
        rcases h with h | h
        · rw [hpa] at h; cases h
        · have := List.mem_filter.mp hu
          exact h u this.1 this.2
    · rw [if_neg hpa]
      simp only [true_iff]
      exact Or.inl (by simpa using hpa)
  · intro st u
    simp only [isValidContentVideo, isAdVideo, Bool.and_eq_true, bne_iff_ne,
      decide_eq_true_eq, Bool.not_eq_true', Bool.and_eq_false_iff]
    constructor
    · rintro ⟨⟨⟨h1, h2⟩, h3⟩, h4⟩
      refine ⟨h1, h2, h3, ?_⟩
      rintro ⟨ha, hb⟩
      rcases h4 with h | h
      · rw [ha] at h; cases h
      · rw [hb] at h; cases h
    · rintro ⟨h1, h2, h3, h4⟩
      refine ⟨⟨⟨h1, h2⟩, h3⟩, ?_⟩
      by_cases ha : st.adContainerPresent = true
      · right
        by_contra hb
        exact h4 ⟨ha, by simpa using hb⟩
      · left
        simpa using ha

/-- Witness for C5: the forward description applied to the
advertisement-plus-content page (ad video first in DOM order), and the
null case applied to a page whose only player video is the invalid
advertisement. -/
theorem C5_media_locator_witness :
    (contentVideo ∈ adFirstSt.videos ∧ contentVideo.inPlayer = true ∧
      isValidContentVideo adFirstSt contentVideo = true ∧
      (∀ u ∈ adFirstSt.videos, u.inPlayer = true →
        isValidContentVideo adFirstSt u = true →
        u.readyState ≤ contentVideo.readyState) ∧
      (∃ l1 l2, playerVideos adFirstSt = l1 ++ contentVideo :: l2 ∧
        ∀ u ∈ l1, isValidContentVideo adFirstSt u = true →
          u.readyState < contentVideo.readyState)) ∧
    getVideoElement adOnlySt = none :=
  ⟨C5_media_locator.1 adFirstSt contentVideo rfl,
   (C5_media_locator.2.1 adOnlySt).mpr (Or.inr (by decide))⟩

/-! ## Fullscreen transitions -/

/-- After cleanupUpscaling targeted at element id, that element's display
is restored to the empty value. -/
theorem cleanupVideos_display_target (pa : Bool) (id : Nat) (l : List Video) :
    ∀ v ∈ cleanupVideos pa (some id) l, v.vid = id → v.display = "" := by
  intro v hv hvid
  unfold cleanupVideos at hv
  by_cases hpa : pa = true
  · rw [if_pos hpa] at hv
    obtain ⟨u1, hu1, rfl⟩ := List.mem_map.mp hv
    obtain ⟨u0, hu0, rfl⟩ := List.mem_map.mp hu1
    by_cases hc1 : (u0.vid == id) = true <;> by_cases hc2 : u0.inPlayer = true <;>
      simp_all
  · rw [if_neg hpa] at hv
    obtain ⟨u0, hu0, rfl⟩ := List.mem_map.mp hv
    by_cases hc1 : (u0.vid == id) = true <;> simp_all

/-- C7: a fullscreenchange event that finds fullscreenElement set while a
session is recorded tears the session down synchronously inside the
handler (no canvas, no pipeline, session cleared, the source element's
display restored) and schedules nothing; a fullscreenchange event that
finds fullscreen exited while the feature is still enabled schedules a
new enable attempt after exactly one settle delay of 100 ms. -/
theorem C7_fullscreen_transitions :
    (∀ st id, st.fullscreenElement = true → st.currentVideoElement = some id →
      st.pipelines ≤ st.canvasCount →
      (fullscreenChangeHandler st).2 = none ∧
      (fullscreenChangeHandler st).1.canvasCount = 0 ∧
      (fullscreenChangeHandler st).1.pipelines = 0 ∧
      (fullscreenChangeHandler st).1.currentVideoElement = none ∧
      (∀ v ∈ (fullscreenChangeHandler st).1.videos, v.vid = id →
        v.display = "")) ∧
    (∀ st, st.fullscreenElement = false → st.currentEnabled = true →
      fullscreenChangeHandler st = (st, some (.timerEnable settleDelayMs)) ∧
      settleDelayMs = 100) := by
  constructor
  · intro st id hfs hcur hpc
    unfold fullscreenChangeHandler
    rw [if_pos hfs, hcur]
    refine ⟨rfl, rfl, ?_, rfl, ?_⟩
    · show (if 0 < st.canvasCount then 0 else st.pipelines) = 0
      by_cases hc : 0 < st.canvasCount
      · rw [if_pos hc]
      · rw [if_neg hc]; omega
    · exact cleanupVideos_display_target st.playerAreaPresent id st.videos
  · intro st hfs hen
    unfold fullscreenChangeHandler
    rw [if_neg (by simp [hfs]), if_pos hen]
    exact ⟨rfl, rfl⟩

/-- Witness for C7: the handler torn-down facts at a state with an active
session in fullscreen, and the re-enable scheduling at a non-fullscreen
enabled state. -/
theorem C7_fullscreen_transitions_witness :
    ((fullscreenChangeHandler fsActiveSt).2 = none ∧
      (fullscreenChangeHandler fsActiveSt).1.canvasCount = 0) ∧
    fullscreenChangeHandler enabledSt
      = (enabledSt, some (.timerEnable settleDelayMs)) := by
  have h1 := C7_fullscreen_transitions.1 fsActiveSt 1 rfl rfl (by decide)
  have h2 := C7_fullscreen_transitions.2 enabledSt rfl rfl
  exact ⟨⟨h1.1, h1.2.1⟩, h2.1⟩

/-! ## Listener and observer bookkeeping -/

/-- Inversion of a successful createUpscaledCanvas: the canvas is created
only when no element with the well-known id exists yet. -/
theorem createUpscaledCanvas_ok {st : St} {v : Video} {st1 : St}
    (h : createUpscaledCanvas st v = .ok st1) :
    st1 = (if st.canvasCount = 0 then { st with canvasCount := 1 } else st) := by
  unfold createUpscaledCanvas at h
  by_cases h1 : (!v.hasParent) = true
  · rw [if_pos h1] at h; cases h
  · rw [if_neg h1] at h
    by_cases h2 : (v.videoWidth = 0 || v.videoHeight = 0) = true
    · rw [if_pos h2] at h; cases h
    · rw [if_neg h2] at h
      injection h with h
      exact h.symm

theorem frameLO_enableStart (st : St) : frameLO (enableStart st).1 st := by
  unfold enableStart
  dsimp only
  repeat' split
  all_goals exact ⟨rfl, rfl, rfl, rfl⟩

theorem frameLO_stepTask (env : Env) (st : St) (t : Task) :
    frameLO (stepTask env st t).1 st := by
  cases t with
  | timerEnable d =>
    unfold stepTask enableStart
    dsimp only
    repeat' split
    all_goals exact ⟨rfl, rfl, rfl, rfl⟩
  | atProbe vid =>
    unfold stepTask probeSt
    dsimp only
    repeat' split
    all_goals exact ⟨rfl, rfl, rfl, rfl⟩
  | atWait vid =>
    unfold stepTask
    dsimp only
    by_cases hw : waitResolvesOk env st vid = true
    · rw [if_pos hw]
      cases hf : findVideo st vid with
      | none => exact ⟨rfl, rfl, rfl, rfl⟩
      | some v =>
        dsimp only
        cases hc : createUpscaledCanvas st v with
        | error e => exact ⟨rfl, rfl, rfl, rfl⟩
        | ok st1 =>
          dsimp only
          have he := createUpscaledCanvas_ok hc
          subst he
          by_cases h0 : st.canvasCount = 0
          · rw [if_pos h0]; exact ⟨rfl, rfl, rfl, rfl⟩
          · rw [if_neg h0]; exact ⟨rfl, rfl, rfl, rfl⟩
    · rw [if_neg hw]; exact ⟨rfl, rfl, rfl, rfl⟩
  | atRender vid =>
    unfold stepTask
    dsimp only
    repeat' split
    all_goals exact ⟨rfl, rfl, rfl, rfl⟩

theorem frameLO_handler (st : St) : frameLO (fullscreenChangeHandler st).1 st := by
  unfold fullscreenChangeHandler
  repeat' split
  all_goals exact ⟨rfl, rfl, rfl, rfl⟩

theorem frameLO_callback (st : St) (m : Mut) :
    frameLO (observerCallback st m).1 st := by
  cases m <;> unfold observerCallback <;> dsimp only <;> repeat' split
  all_goals exact ⟨rfl, rfl, rfl, rfl⟩

theorem frameLO_domApply (st : St) (m : Mut) : frameLO (domApply st m) st := by
  cases m <;> unfold domApply <;> exact ⟨rfl, rfl, rfl, rfl⟩

theorem MInv_of_frameLO {a b : St} (hf : frameLO a b) (h : MInv b) : MInv a := by
  unfold MInv frameLO at *
  rw [hf.1, hf.2.1, hf.2.2.1, hf.2.2.2]
  exact h

theorem MInv_setupFullscreenListener {st : St} (h : MInv st) :
    MInv (setupFullscreenListener st) := by
  unfold setupFullscreenListener
  split
  · exact h
  · rename_i hcond
    have hflag : st.fullscreenListenerSetup = false := by
      by_cases hf : st.fullscreenListenerSetup = true
      · exact absurd (by simp [hf]) hcond
      · simpa using hf
    unfold MInv at *
    rw [hflag] at h
    simp only [Bool.false_eq_true, if_false] at h
    constructor
    · show st.fullscreenListeners + 1 = 1
      omega
    · exact h.2

theorem MInv_setupVideoObserver {st : St} (h : MInv st) :
    MInv (setupVideoObserver st) := by
  unfold setupVideoObserver
  split
  · exact h
  · split
    · exact h
    · rename_i hcond hpa
      have href : st.videoObserverRef = false := by
        by_cases hf : st.videoObserverRef = true
        · exact absurd (by simp [hf]) hcond
        · simpa using hf
      unfold MInv at *
      rw [href] at h
      simp only [Bool.false_eq_true, if_false] at h
      constructor
      · exact h.1
      · show st.aliveObservers + 1 = 1
        omega

theorem MInv_stopVideoObserver {st : St} (h : MInv st) :
    MInv (stopVideoObserver st) := by
  unfold stopVideoObserver
  split
  · rename_i href
    unfold MInv at *
    rw [href] at h
    simp only [if_true] at h
    constructor
    · exact h.1
    · show st.aliveObservers - 1 = 0
      omega
  · exact h

theorem MInv_exec (env : Env) (sys : Sys) (c : Cmd) (h : MInv sys.st) :
    MInv (exec env sys c).st := by
  cases c with
  | applyTrue =>
    exact MInv_of_frameLO (frameLO_enableStart _)
      (MInv_setupVideoObserver (MInv_setupFullscreenListener h))
  | applyFalse =>
    exact MInv_stopVideoObserver
      (MInv_of_frameLO ⟨rfl, rfl, rfl, rfl⟩ h)
  | resume i =>
    unfold exec
    dsimp only
    cases ht : sys.tasks[i]? with
    | none => exact h
    | some t => exact MInv_of_frameLO (frameLO_stepTask env sys.st t) h
  | fsEvent b =>
    unfold exec
    dsimp only
    split
    · exact MInv_of_frameLO (frameLO_handler _) h
    · exact h
  | mutation m =>
    unfold exec
    dsimp only
    split
    · exact MInv_of_frameLO (frameLO_callback _ m)
        (MInv_of_frameLO (frameLO_domApply sys.st m) h)
    · exact MInv_of_frameLO (frameLO_domApply sys.st m) h

theorem MInv_runCmds (env : Env) (cmds : List Cmd) (sys : Sys)
    (h : MInv sys.st) : MInv (runCmds env cmds sys).st := by
  induction cmds generalizing sys with
  | nil => exact h
  | cons c rest ih => exact ih (exec env sys c) (MInv_exec env sys c h)

theorem exec_ref_false (env : Env) (sys : Sys) (c : Cmd)
    (hc : c ≠ Cmd.applyTrue) (h : sys.st.videoObserverRef = false) :
    (exec env sys c).st.videoObserverRef = false := by
  cases c with
  | applyTrue => exact absurd rfl hc
  | applyFalse =>
    show (stopVideoObserver _).videoObserverRef = false
    unfold stopVideoObserver
    split
    · rfl
    · exact h
  | resume i =>
    unfold exec
    dsimp only
    cases ht : sys.tasks[i]? with
    | none => exact h
    | some t => rw [(frameLO_stepTask env sys.st t).2.2.1]; exact h
  | fsEvent b =>
    unfold exec
    dsimp only
    split
    · rw [(frameLO_handler _).2.2.1]; exact h
    · exact h
  | mutation m =>
    unfold exec
    dsimp only
    have hda : (domApply sys.st m).videoObserverRef = false := by
      rw [(frameLO_domApply sys.st m).2.2.1]; exact h
    split
    · rename_i hcond
      rw [hda] at hcond
      cases hcond
    · exact hda

/-- C10: across any sequence of event-loop commands the module keeps at
most one fullscreenchange listener and at most one live MutationObserver
(repeated apply(true) calls install no duplicates, guarded by the
fullscreenListenerSetup flag and the videoObserver reference); apply(false)
disconnects the observer, and until the next apply(true) the observer
reference stays cleared, so a DOM mutation only applies its raw DOM
change and triggers no observer callback and no enable attempt. -/
theorem C10_single_listener_observer :
    (∀ env cmds sys, MInv sys.st →
      (runCmds env cmds sys).st.fullscreenListeners ≤ 1 ∧
      (runCmds env cmds sys).st.aliveObservers ≤ 1) ∧
    (∀ env sys, (exec env sys .applyFalse).st.videoObserverRef = false ∧
      (MInv sys.st → (exec env sys .applyFalse).st.aliveObservers = 0)) ∧
    (∀ env cmds sys, sys.st.videoObserverRef = false →
      (∀ c ∈ cmds, c ≠ Cmd.applyTrue) →
      (runCmds env cmds sys).st.videoObserverRef = false) ∧
    (∀ env sys m, sys.st.videoObserverRef = false →
      exec env sys (.mutation m) = ⟨domApply sys.st m, sys.tasks⟩) := by
  refine ⟨?_, ?_, ?_, ?_⟩
  · intro env cmds sys h
    have hr := MInv_runCmds env cmds sys h
    unfold MInv at hr
    constructor
    · rw [hr.1]; split <;> omega
    · rw [hr.2]; split <;> omega
  · intro env sys
    have href : (exec env sys .applyFalse).st.videoObserverRef = false := by
      show (stopVideoObserver _).videoObserverRef = false
      unfold stopVideoObserver
      split
      · rfl
      · rename_i hr
        simpa using hr
    refine ⟨href, ?_⟩
    intro h
    have hm := MInv_exec env sys .applyFalse h
    unfold MInv at hm
    rw [hm.2, href]
    rfl
  · intro env cmds sys h hall
    induction cmds generalizing sys with
    | nil => exact h
    | cons c rest ih =>
      exact ih (exec env sys c)
        (exec_ref_false env sys c (hall c (List.mem_cons_self c rest)) h)
        (fun x hx => hall x (List.mem_cons_of_mem c hx))
  · intro env sys m h
    unfold exec
    dsimp only
    have hda : (domApply sys.st m).videoObserverRef = false := by
      rw [(frameLO_domApply sys.st m).2.2.1]; exact h
    rw [if_neg (by rw [hda]; simp)]

/-- Witness for C10: counts after two apply(true) calls, the observer
reference after apply(false), its persistence across a later mutation,
and the no-op callback of a mutation with no live observer. -/
theorem C10_single_listener_observer_witness :
    ((runCmds envOK [.applyTrue, .applyTrue] initSys).st.fullscreenListeners ≤ 1 ∧
      (runCmds envOK [.applyTrue, .applyTrue] initSys).st.aliveObservers ≤ 1) ∧
    (exec envOK ⟨enabledSt, []⟩ .applyFalse).st.videoObserverRef = false ∧
    (runCmds envOK [.applyFalse, .mutation .nodeAdded] initSys).st.videoObserverRef
        = false ∧
    exec envOK initSys (.mutation .nodeAdded)
        = ⟨domApply initSt .nodeAdded, []⟩ :=
  ⟨C10_single_listener_observer.1 envOK [.applyTrue, .applyTrue] initSys ⟨rfl, rfl⟩,
   (C10_single_listener_observer.2.1 envOK ⟨enabledSt, []⟩).1,
   C10_single_listener_observer.2.2.1 envOK [.applyFalse, .mutation .nodeAdded]
     initSys rfl (by decide),
   C10_single_listener_observer.2.2.2 envOK initSys .nodeAdded rfl⟩

/-! ## Stale in-flight start sequences -/

/-- C4 amended: a suspended enableUpscaling continuation performs no
still-current check when its waits resolve.  From any state with a
positive capability cache, a ready video and a successful render — in
particular one where a disable request has already set currentEnabled to
false — resuming the probe continuation runs to activation: it starts a
new pipeline, records the session, sets the active marker, and leaves the
disabled flag untouched instead of discarding its result. -/
theorem C4_stale_start_ignores_disable (env : Env) (st : St) (vid : Nat) (v : Video)
    (hen : st.currentEnabled = false)
    (hfind : findVideo st vid = some v)
    (hready : readyNow v = true)
    (hparent : v.hasParent = true)
    (hcache : st.webGPUSupportCache = some true)
    (hrender : env.renderOutcome = .success) :
    (runTaskChain env st (.atProbe vid) 3).pipelines = st.pipelines + 1 ∧
    (runTaskChain env st (.atProbe vid) 3).currentVideoElement = some vid ∧
    (runTaskChain env st (.atProbe vid) 3).currentVideoSrc = some v.src ∧
    (runTaskChain env st (.atProbe vid) 3).currentEnabled = false ∧
    markerOf (runTaskChain env st (.atProbe vid) 3) vid = some UPSCALING_ACTIVE := by
  have hfind2 : st.videos.find? (fun u => u.vid == vid) = some v := hfind
  have hp := List.find?_some hfind2
  simp only [beq_iff_eq] at hp
  subst hp
  have hw0 : ¬(v.videoWidth = 0) := by
    intro hcontra
    simp [readyNow, hcontra] at hready
  have hh0 : ¬(v.videoHeight = 0) := by
    intro hcontra
    simp [readyNow, hcontra] at hready
  obtain ⟨gpu, aav, ath, ws, ro⟩ := env
  simp only at hrender
  subst hrender
  obtain ⟨videos, pa, adc, path, fse, fsd, cc, pp, cache, rac, cvs, cve, ce, vor, ao, fl, fls⟩ := st
  simp only at hen hcache hfind2
  subst hen
  subst hcache
  by_cases h0 : cc = 0
  case pos =>
    subst h0
    simp only [runTaskChain, stepTask, probeSt, isWebGPUSupported, waitResolvesOk, findVideo,
      createUpscaledCanvas, activateSession, markerOf, hfind2, hready, hparent, hw0, hh0]
    simp [hfind2]
    have hc : ((fun v1 : Video => v1.vid == v.vid) ∘ (fun u : Video =>
        if u.vid = v.vid then { u with display := "none", marker := some UPSCALING_ACTIVE }
        else u)) = fun u : Video => u.vid == v.vid := by
      funext u
      by_cases h : u.vid = v.vid <;> simp [h]
    rw [hc, hfind2]
    simp
  case neg =>
    simp only [runTaskChain, stepTask, probeSt, isWebGPUSupported, waitResolvesOk, findVideo,
      createUpscaledCanvas, activateSession, markerOf, hfind2, hready, hparent, hw0, hh0, h0]
    simp [hfind2]
    have hc : ((fun v1 : Video => v1.vid == v.vid) ∘ (fun u : Video =>
        if u.vid = v.vid then { u with display := "none", marker := some UPSCALING_ACTIVE }
        else u)) = fun u : Video => u.vid == v.vid := by
      funext u
      by_cases h : u.vid = v.vid <;> simp [h]
    rw [hc, hfind2]
    simp

/-- Witness for the amended C4 at the concrete stale state: the resumed
continuation activates a session although the feature is disabled. -/
theorem C4_stale_start_ignores_disable_witness :
    (runTaskChain envOK staleSt (.atProbe 1) 3).pipelines = staleSt.pipelines + 1 ∧
    (runTaskChain envOK staleSt (.atProbe 1) 3).currentVideoElement = some 1 ∧
    (runTaskChain envOK staleSt (.atProbe 1) 3).currentVideoSrc
        = some contentVideo.src ∧
    (runTaskChain envOK staleSt (.atProbe 1) 3).currentEnabled = false ∧
    markerOf (runTaskChain envOK staleSt (.atProbe 1) 3) 1
        = some UPSCALING_ACTIVE :=
  C4_stale_start_ignores_disable envOK staleSt 1 contentVideo rfl rfl (by decide)
    rfl rfl rfl

/-! ## Sequential single-session invariant -/

theorem SInv_of_pip0 {st : St} (h1 : st.canvasCount ≤ 1) (h2 : st.pipelines = 0) :
    SInv st := by
  unfold SInv
  refine ⟨h1, by omega, ?_⟩
  intro hx
  exact absurd hx (by omega)

theorem markerOf_activate (st : St) (w : Video) (hfind : findVideo st w.vid = some w) :
    markerOf (activateSession st w) w.vid = some UPSCALING_ACTIVE := by
  unfold markerOf findVideo activateSession
  dsimp only
  rw [List.find?_map]
  have hc : ((fun v => v.vid == w.vid) ∘ (fun u : Video =>
      if u.vid == w.vid then { u with display := "none", marker := some UPSCALING_ACTIVE }
      else u)) = fun u : Video => u.vid == w.vid := by
    funext u
    by_cases h : (u.vid == w.vid) = true <;> simp only [beq_iff_eq] at h <;> simp [h]
  rw [hc]
  rw [show st.videos.find? (fun u => u.vid == w.vid) = some w from hfind]
  simp

theorem SInv_chain_render (env : Env) (st3 : St) (vid : Nat)
    (h1 : st3.canvasCount ≤ 1) (hc1 : 1 ≤ st3.canvasCount) (h2 : st3.pipelines = 0) :
    SInv (runTaskChain env st3 (.atRender vid) 1) := by
  unfold runTaskChain stepTask
  dsimp only
  cases hro : env.renderOutcome with
  | success =>
    dsimp only
    cases hf : findVideo st3 vid with
    | none => exact SInv_of_pip0 h1 h2
    | some w =>
      dsimp only
      have hwvid : w.vid = vid := by
        have hp := List.find?_some (show st3.videos.find? (fun u => u.vid == vid) = some w from hf)
        simpa only [beq_iff_eq] using hp
      unfold SInv
      refine ⟨h1, by show st3.pipelines + 1 ≤ st3.canvasCount; omega, ?_⟩
      intro _
      refine ⟨w.vid, rfl, ?_⟩
      have hf2 : findVideo st3 w.vid = some w := by rw [hwvid]; exact hf
      exact markerOf_activate st3 w hf2
  | abortError => exact SInv_of_pip0 h1 h2
  | failure =>
    dsimp only
    unfold SInv
    refine ⟨Nat.zero_le 1, ?_, ?_⟩
    · show (if 0 < st3.canvasCount then 0 else st3.pipelines) ≤ 0
      split <;> omega
    · intro hx
      exfalso
      revert hx
      show ((if 0 < st3.canvasCount then 0 else st3.pipelines) = 1) → False
      split <;> omega

theorem SInv_chain_wait (env : Env) (st2 : St) (vid : Nat)
    (h1 : st2.canvasCount ≤ 1) (h2 : st2.pipelines = 0) :
    SInv (runTaskChain env st2 (.atWait vid) 2) := by
  unfold runTaskChain stepTask
  dsimp only
  by_cases hw : waitResolvesOk env st2 vid = true
  · rw [if_pos hw]
    cases hf : findVideo st2 vid with
    | none => exact SInv_of_pip0 h1 h2
    | some v =>
      dsimp only
      cases hcc : createUpscaledCanvas st2 v with
      | error e => exact SInv_of_pip0 h1 h2
      | ok st3 =>
        dsimp only
        have he := createUpscaledCanvas_ok hcc
        subst he
        by_cases h0 : st2.canvasCount = 0
        · rw [if_pos h0]
          exact SInv_chain_render env _ vid (by show (1:Nat) ≤ 1; omega)
            (by show (1:Nat) ≤ 1; omega) h2
        · rw [if_neg h0]
          exact SInv_chain_render env st2 vid h1 (by omega) h2
  · rw [if_neg hw]
    exact SInv_of_pip0 h1 h2

theorem SInv_chain (env : Env) (st1 : St) (vid : Nat)
    (h1 : st1.canvasCount ≤ 1) (h2 : st1.pipelines = 0) :
    SInv (runTaskChain env st1 (.atProbe vid) 3) := by
  unfold runTaskChain stepTask probeSt
  dsimp only
  cases hpr : (isWebGPUSupported env st1.webGPUSupportCache).result with
  | error e => exact SInv_of_pip0 h1 h2
  | ok b =>
    dsimp only
    exact SInv_chain_wait env _ vid h1 h2


theorem SInv_cleanup {st : St} (x : Option Nat) (h : st.pipelines ≤ st.canvasCount) :
    SInv (cleanupUpscaling st x) := by
  unfold SInv cleanupUpscaling
  refine ⟨Nat.zero_le 1, ?_, ?_⟩
  · show (if 0 < st.canvasCount then 0 else st.pipelines) ≤ 0
    split <;> omega
  · intro hx
    exfalso
    revert hx
    show ((if 0 < st.canvasCount then 0 else st.pipelines) = 1) → False
    split <;> omega

theorem SInv_enableAtomic (env : Env) (st : St) (h : SInv st) :
    SInv (enableAtomic env st) := by
  unfold enableAtomic enableStart
  dsimp only
  by_cases hwp : (!isWatchPage st) = true
  · rw [if_pos hwp]
    exact h
  · rw [if_neg hwp]
    by_cases hfs : isFullscreenMode st = true
    · rw [if_pos hfs]
      cases hcv : st.currentVideoElement with
      | none => exact h
      | some id => exact SInv_cleanup (some id) h.2.1
    · rw [if_neg hfs]
      cases hg : getVideoElement st with
      | none => exact h
      | some v =>
        dsimp only
        by_cases hch : hasVideoChanged st (some v) = true
        · simp only [hch, if_true]
          cases hcv : st.currentVideoElement with
          | some id =>
            dsimp only
            have hpip : (cleanupUpscaling st (some id)).pipelines = 0 := by
              show (if 0 < st.canvasCount then 0 else st.pipelines) = 0
              have := h.2.1
              split <;> omega
            by_cases hm : (markerOf { cleanupUpscaling st (some id) with currentVideoElement := none, currentVideoSrc := none } v.vid == some UPSCALING_ACTIVE) = true
            · rw [if_pos hm]
              dsimp only
              exact SInv_of_pip0 (by show (0:Nat) ≤ 1; omega) hpip
            · rw [if_neg hm]
              dsimp only
              exact SInv_chain env _ v.vid (by show (0:Nat) ≤ 1; omega) hpip
          | none =>
            dsimp only
            have hp0 : st.pipelines = 0 := by
              obtain ⟨hA, hB, hC⟩ := h
              by_cases hp1 : st.pipelines = 1
              · obtain ⟨id, heq, _⟩ := hC hp1
                rw [hcv] at heq
                exact absurd heq (by simp)
              · omega
            by_cases hm : (markerOf { st with currentVideoElement := none, currentVideoSrc := none } v.vid == some UPSCALING_ACTIVE) = true
            · rw [if_pos hm]
              dsimp only
              exact SInv_of_pip0 h.1 hp0
            · rw [if_neg hm]
              dsimp only
              exact SInv_chain env _ v.vid h.1 hp0
        · simp only [hch, Bool.false_eq_true, if_false]
          have hveq : st.currentVideoElement = some v.vid ∧ st.currentVideoSrc = some v.src := by
            unfold hasVideoChanged at hch
            simp only [Bool.or_eq_true, decide_eq_true_eq, not_or, not_not] at hch
            exact hch
          by_cases hm : (markerOf st v.vid == some UPSCALING_ACTIVE) = true
          · rw [if_pos hm]
            dsimp only
            exact h
          · rw [if_neg hm]
            dsimp only
            have hp0 : st.pipelines = 0 := by
              obtain ⟨hA, hB, hC⟩ := h
              by_cases hp1 : st.pipelines = 1
              · obtain ⟨id, heq, hmk⟩ := hC hp1
                rw [hveq.1] at heq
                injection heq with heq
                subst heq
                exact absurd (beq_iff_eq.mpr hmk) hm
              · omega
            exact SInv_chain env st v.vid h.1 hp0

theorem SInv_congr {a b : St} (hv : a.videos = b.videos)
    (hc : a.canvasCount = b.canvasCount) (hp : a.pipelines = b.pipelines)
    (he : a.currentVideoElement = b.currentVideoElement) : SInv a ↔ SInv b := by
  unfold SInv markerOf findVideo
  rw [hv, hc, hp, he]

theorem setupFL_fields (st : St) :
    (setupFullscreenListener st).videos = st.videos ∧
    (setupFullscreenListener st).canvasCount = st.canvasCount ∧
    (setupFullscreenListener st).pipelines = st.pipelines ∧
    (setupFullscreenListener st).currentVideoElement = st.currentVideoElement := by
  unfold setupFullscreenListener
  split <;> exact ⟨rfl, rfl, rfl, rfl⟩

theorem setupVO_fields (st : St) :
    (setupVideoObserver st).videos = st.videos ∧
    (setupVideoObserver st).canvasCount = st.canvasCount ∧
    (setupVideoObserver st).pipelines = st.pipelines ∧
    (setupVideoObserver st).currentVideoElement = st.currentVideoElement := by
  unfold setupVideoObserver
  repeat' split
  all_goals exact ⟨rfl, rfl, rfl, rfl⟩

theorem SInv_applySeq (env : Env) (st : St) (b : Bool) (h : SInv st) :
    SInv (applySeq env st b) := by
  cases b with
  | false =>
    show SInv (stopVideoObserver (disableUpscaling _))
    have hd : SInv (disableUpscaling { st with currentEnabled := false }) :=
      SInv_cleanup _ h.2.1
    unfold stopVideoObserver
    split
    · exact hd
    · exact hd
  | true =>
    have h1 : SInv { st with currentEnabled := true } := h
    have hfl := setupFL_fields { st with currentEnabled := true }
    have h2 := (SInv_congr hfl.1 hfl.2.1 hfl.2.2.1 hfl.2.2.2).mpr h1
    have hvo := setupVO_fields (setupFullscreenListener { st with currentEnabled := true })
    have h3 := (SInv_congr hvo.1 hvo.2.1 hvo.2.2.1 hvo.2.2.2).mpr h2
    exact SInv_enableAtomic env _ h3

theorem SInv_seqRun (env : Env) (cmds : List Bool) (st : St) (h : SInv st) :
    SInv (seqRun env cmds st) := by
  induction cmds generalizing st with
  | nil => exact h
  | cons c rest ih => exact ih (applySeq env st c) (SInv_applySeq env st c h)

/-! ## Canvas uniqueness across interleavings -/

theorem canvas_enableStart (st : St) (h : st.canvasCount ≤ 1) :
    (enableStart st).1.canvasCount ≤ 1 := by
  unfold enableStart
  dsimp only
  repeat' split
  all_goals first | exact h | exact Nat.zero_le 1

theorem canvas_stepTask (env : Env) (st : St) (t : Task) (h : st.canvasCount ≤ 1) :
    (stepTask env st t).1.canvasCount ≤ 1 := by
  cases t with
  | timerEnable d => exact canvas_enableStart st h
  | atProbe vid =>
    unfold stepTask probeSt
    dsimp only
    split
    all_goals exact h
  | atWait vid =>
    unfold stepTask
    dsimp only
    by_cases hw : waitResolvesOk env st vid = true
    · rw [if_pos hw]
      cases hf : findVideo st vid with
      | none => exact h
      | some v =>
        dsimp only
        cases hc : createUpscaledCanvas st v with
        | error e => exact h
        | ok st1 =>
          dsimp only
          have he := createUpscaledCanvas_ok hc
          subst he
          by_cases h0 : st.canvasCount = 0
          · rw [if_pos h0]
          · rw [if_neg h0]; exact h
    · rw [if_neg hw]; exact h
  | atRender vid =>
    unfold stepTask
    dsimp only
    repeat' split
    all_goals first | exact h | exact Nat.zero_le 1

theorem canvas_exec (env : Env) (sys : Sys) (c : Cmd) (h : sys.st.canvasCount ≤ 1) :
    (exec env sys c).st.canvasCount ≤ 1 := by
  cases c with
  | applyTrue =>
    refine canvas_enableStart _ ?_
    have hfl := setupFL_fields { sys.st with currentEnabled := true }
    have hvo := setupVO_fields (setupFullscreenListener { sys.st with currentEnabled := true })
    rw [hvo.2.1, hfl.2.1]
    exact h
  | applyFalse =>
    show (stopVideoObserver _).canvasCount ≤ 1
    unfold stopVideoObserver
    split
    · exact Nat.zero_le 1
    · exact Nat.zero_le 1
  | resume i =>
    unfold exec
    dsimp only
    cases ht : sys.tasks[i]? with
    | none => exact h
    | some t => exact canvas_stepTask env sys.st t h
  | fsEvent b =>
    unfold exec
    dsimp only
    split
    · unfold fullscreenChangeHandler
      repeat' split
      all_goals first | exact h | exact Nat.zero_le 1
    · exact h
  | mutation m =>
    unfold exec
    dsimp only
    have hda : (domApply sys.st m).canvasCount = sys.st.canvasCount := by
      cases m <;> rfl
    split
    · unfold observerCallback
      cases m with
      | srcSet vid s =>
        dsimp only
        repeat' split
        all_goals first | (rw [hda]; exact h) | exact Nat.zero_le 1
      | nodeAdded =>
        dsimp only
        repeat' split
        all_goals rw [hda]; exact h
    · rw [hda]; exact h

theorem canvas_runCmds (env : Env) (cmds : List Cmd) (sys : Sys)
    (h : sys.st.canvasCount ≤ 1) : (runCmds env cmds sys).st.canvasCount ≤ 1 := by
  induction cmds generalizing sys with
  | nil => exact h
  | cons c rest ih => exact ih (exec env sys c) (canvas_exec env sys c h)

/-- C1 amended: at most one overlay canvas (the single element with id
bn-upscaled-canvas) exists at any time, across arbitrary interleavings of
apply calls, continuation resumptions, fullscreen events and mutations —
createUpscaledCanvas reuses the existing element.  At most one running
render pipeline holds for sequential executions, in which each
enableUpscaling invocation completes before the next apply call; the
interleaved counterexample shows the at-most-one-pipeline part fails for
overlapping invocations, so the single-session guarantee is limited to
non-overlapping start sequences. -/
theorem C1_single_session_amended :
    (∀ env cmds sys, sys.st.canvasCount ≤ 1 →
      (runCmds env cmds sys).st.canvasCount ≤ 1) ∧
    (∀ env cmds st, SInv st →
      (seqRun env cmds st).canvasCount ≤ 1 ∧ (seqRun env cmds st).pipelines ≤ 1) := by
  constructor
  · intro env cmds sys h
    exact canvas_runCmds env cmds sys h
  · intro env cmds st h
    have hs := SInv_seqRun env cmds st h
    exact ⟨hs.1, le_trans hs.2.1 hs.1⟩

/-- Witness for the amended C1: interleaved canvas bound and sequential
session bounds at concrete runs. -/
theorem C1_single_session_amended_witness :
    (runCmds envOK [.applyTrue, .applyTrue, .resume 0, .resume 1] initSys).st.canvasCount ≤ 1 ∧
    (seqRun envOK [true, true] initSt).canvasCount ≤ 1 ∧
    (seqRun envOK [true, true] initSt).pipelines ≤ 1 := by
  have hS : SInv initSt :=
    ⟨by decide, by decide, fun h => absurd h (by decide)⟩
  exact ⟨C1_single_session_amended.1 envOK [.applyTrue, .applyTrue, .resume 0, .resume 1] initSys (by decide),
    (C1_single_session_amended.2 envOK [true, true] initSt hS).1,
    (C1_single_session_amended.2 envOK [true, true] initSt hS).2⟩

/-! ## Round trip of apply calls -/

theorem coreEq_refl (a : St) : coreEq a a := ⟨rfl, rfl⟩

theorem coreEq_trans {a b c : St} (h1 : coreEq a b) (h2 : coreEq b c) : coreEq a c :=
  ⟨h1.1.trans h2.1, h1.2.trans h2.2⟩

theorem core_cleanupVideos (pa : Bool) (x : Option Nat) (l : List Video) :
    (cleanupVideos pa x l).map Video.core = l.map Video.core := by
  unfold cleanupVideos
  cases x with
  | none =>
    dsimp only
    split
    · exact map_core_map _ (fun v => by
        by_cases h : v.inPlayer = true <;> simp [h, Video.core]) l
    · rfl
  | some id =>
    dsimp only
    split
    · rw [map_core_map _ (fun v => by
        by_cases h : v.inPlayer = true <;> simp [h, Video.core])]
      exact map_core_map _ (fun v => by
        by_cases h : (v.vid == id) = true <;> simp [h, Video.core]) l
    · exact map_core_map _ (fun v => by
        by_cases h : (v.vid == id) = true <;> simp [h, Video.core]) l

theorem coreEq_cleanup (st : St) (x : Option Nat) :
    coreEq (cleanupUpscaling st x) st :=
  ⟨core_cleanupVideos st.playerAreaPresent x st.videos, rfl⟩

theorem coreEq_activate (st : St) (v : Video) :
    coreEq (activateSession st v) st :=
  ⟨map_core_map _ (fun u => by
    by_cases h : (u.vid == v.vid) = true <;> simp [h, Video.core]) st.videos, rfl⟩

theorem coreEq_cleanup_reset (st : St) (x : Option Nat) :
    coreEq { cleanupUpscaling st x with
      currentVideoElement := none, currentVideoSrc := none } st :=
  ⟨core_cleanupVideos st.playerAreaPresent x st.videos, rfl⟩

theorem coreEq_enableStart (st : St) : coreEq (enableStart st).1 st := by
  unfold enableStart
  dsimp only
  repeat' split
  all_goals first
    | exact coreEq_refl st
    | exact coreEq_cleanup st _
    | exact coreEq_cleanup_reset st _

theorem coreEq_stepTask (env : Env) (st : St) (t : Task) :
    coreEq (stepTask env st t).1 st := by
  cases t with
  | timerEnable d => exact coreEq_enableStart st
  | atProbe vid =>
    unfold stepTask probeSt
    dsimp only
    split
    all_goals exact ⟨rfl, rfl⟩
  | atWait vid =>
    unfold stepTask
    dsimp only
    by_cases hw : waitResolvesOk env st vid = true
    · rw [if_pos hw]
      cases hf : findVideo st vid with
      | none => exact coreEq_refl st
      | some v =>
        dsimp only
        cases hc : createUpscaledCanvas st v with
        | error e => exact coreEq_refl st
        | ok st1 =>
          dsimp only
          have he := createUpscaledCanvas_ok hc
          subst he
          by_cases h0 : st.canvasCount = 0
          · rw [if_pos h0]; exact ⟨rfl, rfl⟩
          · rw [if_neg h0]; exact coreEq_refl st
    · rw [if_neg hw]; exact coreEq_refl st
  | atRender vid =>
    unfold stepTask
    dsimp only
    cases hro : env.renderOutcome with
    | success =>
      dsimp only
      cases hf : findVideo st vid with
      | none => exact coreEq_refl st
      | some w => exact coreEq_activate st w
    | abortError => exact coreEq_refl st
    | failure =>
      dsimp only
      exact coreEq_cleanup_reset st _

theorem coreEq_runTaskChain (env : Env) (fuel : Nat) :
    ∀ (st : St) (t : Task), coreEq (runTaskChain env st t fuel) st := by
  induction fuel with
  | zero => intro st t; exact coreEq_refl st
  | succ n ih =>
    intro st t
    unfold runTaskChain
    dsimp only
    cases hp : (stepTask env st t).2 with
    | none => exact coreEq_stepTask env st t
    | some t1 => exact coreEq_trans (ih _ t1) (coreEq_stepTask env st t)

theorem coreEq_enableAtomic (env : Env) (st : St) :
    coreEq (enableAtomic env st) st := by
  unfold enableAtomic
  dsimp only
  cases hp : (enableStart st).2 with
  | none => exact coreEq_enableStart st
  | some t => exact coreEq_trans (coreEq_runTaskChain env 3 _ t) (coreEq_enableStart st)

theorem stop_fields (x : St) :
    (stopVideoObserver x).canvasCount = x.canvasCount ∧
    (stopVideoObserver x).pipelines = x.pipelines ∧
    (stopVideoObserver x).currentVideoElement = x.currentVideoElement ∧
    (stopVideoObserver x).currentVideoSrc = x.currentVideoSrc ∧
    (stopVideoObserver x).videos = x.videos ∧
    (stopVideoObserver x).playerAreaPresent = x.playerAreaPresent := by
  unfold stopVideoObserver
  split <;> exact ⟨rfl, rfl, rfl, rfl, rfl, rfl⟩

theorem coreEq_applySeq (env : Env) (st : St) (b : Bool) :
    coreEq (applySeq env st b) st := by
  cases b with
  | false =>
    show coreEq (stopVideoObserver (disableUpscaling _)) st
    have hs := stop_fields (disableUpscaling { st with currentEnabled := false })
    refine coreEq_trans ⟨by rw [hs.2.2.2.2.1], hs.2.2.2.2.2⟩ ?_
    exact ⟨core_cleanupVideos st.playerAreaPresent _ st.videos, rfl⟩
  | true =>
    refine coreEq_trans (coreEq_enableAtomic env _) ?_
    unfold setupVideoObserver setupFullscreenListener
    repeat' split
    all_goals exact ⟨rfl, rfl⟩

theorem cleanupVideos_inPlayer (x : Option Nat) (l : List Video) :
    ∀ v ∈ cleanupVideos true x l, v.inPlayer = true →
      v.display = "" ∧ v.marker = some UPSCALING_INACTIVE := by
  intro v hv hvp
  unfold cleanupVideos at hv
  rw [if_pos rfl] at hv
  obtain ⟨u, hu, rfl⟩ := List.mem_map.mp hv
  by_cases h : u.inPlayer = true
  · simp [h]
  · rw [if_neg h] at hvp ⊢
    exact absurd hvp h

theorem applyFalse_post (st : St) (hpa : st.playerAreaPresent = true)
    (hpc : st.pipelines ≤ st.canvasCount) :
    (applyFalseSt st).canvasCount = 0 ∧ (applyFalseSt st).pipelines = 0 ∧
    (applyFalseSt st).currentVideoElement = none ∧
    (applyFalseSt st).currentVideoSrc = none ∧
    (∀ v ∈ (applyFalseSt st).videos, v.inPlayer = true →
      v.display = "" ∧ v.marker = some UPSCALING_INACTIVE) := by
  unfold applyFalseSt
  have hs := stop_fields (disableUpscaling { st with currentEnabled := false })
  refine ⟨by rw [hs.1]; rfl, ?_, by rw [hs.2.2.1]; rfl, by rw [hs.2.2.2.1]; rfl, ?_⟩
  · rw [hs.2.1]
    show (if 0 < st.canvasCount then 0 else st.pipelines) = 0
    split <;> omega
  · rw [hs.2.2.2.2.1]
    show ∀ v ∈ cleanupVideos st.playerAreaPresent _ st.videos, _
    rw [hpa]
    exact cleanupVideos_inPlayer _ st.videos

/-- C2 amended: apply(false); apply(true); apply(false) run sequentially
from a state without canvas or pipeline leaves the overlay canvas absent,
no pipeline, the session cleared, all identity fields of the videos
untouched, the player videos' inline display cleared — and the processing
marker attributes present with the value inactive, rather than absent as
in the never-called state (cleanupUpscaling calls setAttribute, not
removeAttribute; likewise any non-empty initial inline display is reset
to empty rather than restored). -/
theorem C2_round_trip_amended (env : Env) (st : St)
    (hpa : st.playerAreaPresent = true) (hc0 : st.canvasCount = 0)
    (hp0 : st.pipelines = 0) :
    (seqRun env [false, true, false] st).canvasCount = 0 ∧
    (seqRun env [false, true, false] st).pipelines = 0 ∧
    (seqRun env [false, true, false] st).currentVideoElement = none ∧
    (seqRun env [false, true, false] st).currentVideoSrc = none ∧
    (seqRun env [false, true, false] st).videos.map Video.core
        = st.videos.map Video.core ∧
    (∀ v ∈ (seqRun env [false, true, false] st).videos, v.inPlayer = true →
      v.display = "" ∧ v.marker = some UPSCALING_INACTIVE) := by
  have hS : SInv st := ⟨by omega, by omega, fun h => absurd h (by omega)⟩
  have hmid : SInv (applySeq env (applySeq env st false) true) :=
    SInv_applySeq env _ true (SInv_applySeq env st false hS)
  have hcoremid : coreEq (applySeq env (applySeq env st false) true) st :=
    coreEq_trans (coreEq_applySeq env _ true) (coreEq_applySeq env st false)
  have hpamid : (applySeq env (applySeq env st false) true).playerAreaPresent = true := by
    rw [hcoremid.2]; exact hpa
  have hpost := applyFalse_post _ hpamid hmid.2.1
  exact ⟨hpost.1, hpost.2.1, hpost.2.2.1, hpost.2.2.2.1,
    (coreEq_trans (coreEq_applySeq env _ false) hcoremid).1,
    hpost.2.2.2.2⟩

/-- Witness for the amended C2 at the fresh watch page. -/
theorem C2_round_trip_amended_witness :
    (seqRun envOK [false, true, false] initSt).canvasCount = 0 ∧
    (seqRun envOK [false, true, false] initSt).pipelines = 0 ∧
    (seqRun envOK [false, true, false] initSt).currentVideoElement = none ∧
    (seqRun envOK [false, true, false] initSt).currentVideoSrc = none ∧
    (seqRun envOK [false, true, false] initSt).videos.map Video.core
        = initSt.videos.map Video.core ∧
    (∀ v ∈ (seqRun envOK [false, true, false] initSt).videos, v.inPlayer = true →
      v.display = "" ∧ v.marker = some UPSCALING_INACTIVE) :=
  C2_round_trip_amended envOK initSt rfl rfl rfl

/-! ## Media identity changes while active -/

/-- A suspended enable chain whose probe is cached positive, whose video
resolves ready, and whose render succeeds runs to activation. -/
theorem chain_activates (env : Env) (st : St) (vid : Nat) (v : Video)
    (hfind : findVideo st vid = some v)
    (hwait : readyNow v = true ∨ env.waitSucceeds = true)
    (hdw : ¬(v.videoWidth = 0)) (hdh : ¬(v.videoHeight = 0))
    (hparent : v.hasParent = true)
    (hcache : st.webGPUSupportCache = some true)
    (hrender : env.renderOutcome = .success) :
    (runTaskChain env st (.atProbe vid) 3).pipelines = st.pipelines + 1 ∧
    (runTaskChain env st (.atProbe vid) 3).currentVideoElement = some vid ∧
    (runTaskChain env st (.atProbe vid) 3).currentVideoSrc = some v.src ∧
    (runTaskChain env st (.atProbe vid) 3).currentEnabled = st.currentEnabled ∧
    (runTaskChain env st (.atProbe vid) 3).canvasCount
        = (if st.canvasCount = 0 then 1 else st.canvasCount) := by
  have hfind2 : st.videos.find? (fun u => u.vid == vid) = some v := hfind
  have hp := List.find?_some hfind2
  simp only [beq_iff_eq] at hp
  subst hp
  have hwb : (readyNow v || env.waitSucceeds) = true := by
    rcases hwait with h | h <;> simp [h]
  obtain ⟨gpu, aav, ath, ws, ro⟩ := env
  simp only at hrender hwb
  subst hrender
  obtain ⟨videos, pa, adc, path, fse, fsd, cc, pp, cache, rac, cvs, cve, ce, vor, ao, fl, fls⟩ := st
  simp only at hcache hfind2
  subst hcache
  by_cases h0 : cc = 0
  case pos =>
    subst h0
    simp only [runTaskChain, stepTask, probeSt, isWebGPUSupported, waitResolvesOk, findVideo,
      createUpscaledCanvas, activateSession, hfind2, hwb, hparent, hdw, hdh]
    simp [hfind2]
  case neg =>
    simp only [runTaskChain, stepTask, probeSt, isWebGPUSupported, waitResolvesOk, findVideo,
      createUpscaledCanvas, activateSession, hfind2, hwb, hparent, hdw, hdh, h0]
    simp [hfind2, h0]

/-- Element lookup after cleanupUpscaling: the element is found with its
display cleared and its marker set to inactive. -/
theorem findVideo_cleanup (st : St) (x : Option Nat) (id : Nat) (v : Video)
    (hf : findVideo st id = some v) (hpa : st.playerAreaPresent = true)
    (hvp : v.inPlayer = true) :
    findVideo (cleanupUpscaling st x) id
      = some { v with display := "", marker := some UPSCALING_INACTIVE } := by
  unfold findVideo cleanupUpscaling cleanupVideos
  dsimp only
  have hc2 : ((fun u : Video => u.vid == id) ∘ (fun u : Video =>
      if u.inPlayer then { u with display := "", marker := some UPSCALING_INACTIVE }
      else u)) = fun u : Video => u.vid == id := by
    funext u
    by_cases h : u.inPlayer = true <;> simp [h]
  cases x with
  | none =>
    dsimp only
    rw [if_pos hpa, List.find?_map, hc2]
    rw [show st.videos.find? (fun u => u.vid == id) = some v from hf]
    simp [hvp]
  | some oid =>
    dsimp only
    have hc1 : ((fun u : Video => u.vid == id) ∘ (fun u : Video =>
        if u.vid == oid then { u with display := "", marker := some UPSCALING_INACTIVE }
        else u)) = fun u : Video => u.vid == id := by
      funext u
      by_cases h : (u.vid == oid) = true <;> simp only [beq_iff_eq] at h <;> simp [h]
    rw [if_pos hpa, List.find?_map, hc2, List.find?_map, hc1]
    rw [show st.videos.find? (fun u => u.vid == id) = some v from hf]
    by_cases h : (v.vid == oid) = true <;> simp only [beq_iff_eq] at h <;> simp [h, hvp]

/-- C6: while a session is Active (a session element is recorded), a
change of media identity — the located video differs from the recorded
element reference, or the same element carries a different source than
recorded — makes enableUpscaling tear the old session down fully first
(pipelines and canvas both zero in the intermediate state, the run
factoring through it) before a fresh start chain runs against the new
video; and when the remaining steps succeed the fresh session is recorded
against the new element and its new source with exactly one pipeline and
one canvas — a live pipeline is never re-pointed at old state. -/
theorem C6_media_identity_change (env : Env) (st : St) (v : Video) (oldId : Nat)
    (hw : isWatchPage st = true)
    (hfs : isFullscreenMode st = false)
    (hget : getVideoElement st = some v)
    (hcur : st.currentVideoElement = some oldId)
    (hid : oldId ≠ v.vid ∨ st.currentVideoSrc ≠ some v.src)
    (hpc : st.pipelines ≤ st.canvasCount)
    (hnd : (st.videos.map (fun u => u.vid)).Nodup) :
    (enableAtomic env st
        = runTaskChain env (resetSession (cleanupUpscaling st (some oldId)))
            (.atProbe v.vid) 3 ∧
      (cleanupUpscaling st (some oldId)).pipelines = 0 ∧
      (cleanupUpscaling st (some oldId)).canvasCount = 0) ∧
    (st.webGPUSupportCache = some true → env.renderOutcome = .success →
      v.hasParent = true → (readyNow v = true ∨ env.waitSucceeds = true) →
      (enableAtomic env st).currentVideoElement = some v.vid ∧
      (enableAtomic env st).currentVideoSrc = some v.src ∧
      (enableAtomic env st).pipelines = 1 ∧
      (enableAtomic env st).canvasCount = 1) := by
  have hpa : st.playerAreaPresent = true := by
    by_cases h : st.playerAreaPresent = true
    · exact h
    · unfold getVideoElement at hget
      rw [if_neg h] at hget
      cases hget
  have hget1 : firstMax st (playerVideos st) = some v := by
    unfold getVideoElement at hget
    rw [if_pos hpa, selectLoop_eq_firstMax] at hget
    exact hget
  have hmem := firstMax_mem st (playerVideos st) v hget1
  have hmf := List.mem_filter.mp hmem.1
  have hvp : v.inPlayer = true := hmf.2
  have hvalid := hmem.2
  have hdw : ¬(v.videoWidth = 0) := by
    intro hcontra
    unfold isValidContentVideo at hvalid
    rw [hcontra] at hvalid
    simp at hvalid
  have hdh : ¬(v.videoHeight = 0) := by
    intro hcontra
    unfold isValidContentVideo at hvalid
    rw [hcontra] at hvalid
    simp at hvalid
  have hfindv : findVideo st v.vid = some v := findVideo_of_mem_nodup hmf.1 hnd
  have hch : hasVideoChanged st (some v) = true := by
    unfold hasVideoChanged
    rcases hid with h | h
    · simp [hcur, h]
    · simp [h]
  have hfind1 : findVideo (cleanupUpscaling st (some oldId)) v.vid
      = some { v with display := "", marker := some UPSCALING_INACTIVE } :=
    findVideo_cleanup st (some oldId) v.vid v hfindv hpa hvp
  have hm2 : (markerOf { cleanupUpscaling st (some oldId) with currentVideoElement := none, currentVideoSrc := none } v.vid == some UPSCALING_ACTIVE) = false := by
    unfold markerOf
    rw [show findVideo { cleanupUpscaling st (some oldId) with currentVideoElement := none, currentVideoSrc := none } v.vid = some { v with display := "", marker := some UPSCALING_INACTIVE } from hfind1]
    rfl
  have heq : enableAtomic env st
      = runTaskChain env (resetSession (cleanupUpscaling st (some oldId)))
          (.atProbe v.vid) 3 := by
    unfold enableAtomic enableStart
    dsimp only
    rw [if_neg (by simp [hw]), if_neg (by simp [hfs])]
    rw [hget]
    dsimp only
    rw [if_pos hch]
    rw [hcur]
    dsimp only
    rw [if_neg (by simp [hm2])]
    dsimp only
    rfl
  have hpip1 : (cleanupUpscaling st (some oldId)).pipelines = 0 := by
    show (if 0 < st.canvasCount then 0 else st.pipelines) = 0
    split <;> omega
  refine ⟨⟨heq, hpip1, rfl⟩, ?_⟩
  intro hcache hrender hparent hwait
  rw [heq]
  have hc := chain_activates env (resetSession (cleanupUpscaling st (some oldId)))
    v.vid { v with display := "", marker := some UPSCALING_INACTIVE }
    hfind1
    (by rcases hwait with h | h
        · exact Or.inl h
        · exact Or.inr h)
    hdw hdh hparent hcache hrender
  refine ⟨hc.2.1, hc.2.2.1, ?_, ?_⟩
  · rw [hc.1]
    rw [show (resetSession (cleanupUpscaling st (some oldId))).pipelines = 0 from hpip1]
  · rw [hc.2.2.2.2]
    rw [if_pos (show (resetSession (cleanupUpscaling st (some oldId))).canvasCount = 0 from rfl)]

/-- Witness for C6: the same element carrying a new source while a
session is active is torn down and re-created against the new source. -/
theorem C6_media_identity_change_witness :
    (enableAtomic envOK mediaChangedSt).currentVideoElement = some 1 ∧
    (enableAtomic envOK mediaChangedSt).currentVideoSrc = some "blob:new" ∧
    (enableAtomic envOK mediaChangedSt).pipelines = 1 ∧
    (enableAtomic envOK mediaChangedSt).canvasCount = 1 ∧
    (cleanupUpscaling mediaChangedSt (some 1)).pipelines = 0 ∧
    (cleanupUpscaling mediaChangedSt (some 1)).canvasCount = 0 := by
  have h := C6_media_identity_change envOK mediaChangedSt newSrcVideo 1 rfl rfl rfl rfl
    (Or.inr (by decide)) (by decide) (by decide)
  have h2 := h.2 rfl rfl rfl (Or.inl (by decide))
  exact ⟨h2.1, h2.2.1, h2.2.2.1, h2.2.2.2, h.1.2.1, h.1.2.2⟩

end BetterNiconico
